import Mathlib

/-!
Verification development for the deterministic tick-based 2D combat
simulator of `src/simCore.ts`.

Modelling notes.

JavaScript numbers are modelled exactly: spatial quantities that the code
keeps as scaled integers are `ℤ`, real-valued inputs from the match
description are `ℚ`, and every `Math.round(x)` in the code becomes
`jround : ℚ → ℤ`, the JavaScript rounding function (nearest integer, ties
toward positive infinity, i.e. `⌊x + 1/2⌋`).

The source builds a 65536-entry cosine/sine table with `Math.cos` /
`Math.sin` at startup, and the collision resolver calls
`approxInvSqrt(n) = 1 / Math.sqrt(n)`.  These are the only uses of
floating-point transcendental functions; following the specification,
which treats their values as pinned process-wide constants, the embedding
takes the trig table (`COS SIN : Nat → ℤ`) and the inverse square root
(`approxInvSqrt : ℤ → ℚ`) as parameters of the engine, so every theorem
quantifies over them.  No theorem below depends on the actual table
values.

Mutation in the source (`stepSim` updates the state record in place) is
modelled by explicit state passing: each pipeline stage takes the state
and returns the updated state together with the events it appended, in
the exact order the source pushes them.

The source throws `Unknown weaponId` from `initBall`; fallible
construction is modelled with `Option` (`none` = the thrown error).
-/

/-- Combatant identity tag, the `"A" | "B"` literal type of the source. -/
inductive Player
  | A
  | B
deriving DecidableEq, Inhabited

/-- Wall side tag, the `"L" | "R" | "T" | "B"` literal type of the source. -/
inductive Side
  | L
  | R
  | T
  | B
deriving DecidableEq, Inhabited

/-- Real-valued 2D vector of the match description (source `Vec` as used in specs). -/
structure Vec where
  x : ℚ
  y : ℚ
deriving DecidableEq, Inhabited

/-- Scaled integer 2D vector (source `Vec` as used in `BallState`). -/
structure VecZ where
  x : ℤ
  y : ℤ
deriving DecidableEq, Inhabited

/-- Source `WeaponDef`. -/
structure WeaponDef where
  reach : ℚ
  tipRadius : ℚ
  omega : Nat
  baseDamage : ℤ
  ramp : ℤ
  speedMult : ℤ
deriving DecidableEq, Inhabited

/-- Source `BallSpec`. -/
structure BallSpec where
  id : Player
  hp : ℤ
  radius : ℚ
  pos : Vec
  vel : Vec
  weaponId : String
  restitution : Option ℤ
deriving DecidableEq, Inhabited

/-- The `sim` block of the source `MatchSpec`. -/
structure SimCfg where
  scale : ℤ
  maxTicks : Nat
deriving DecidableEq, Inhabited

/-- The `arena` block of the source `MatchSpec`. -/
structure ArenaCfg where
  w : ℚ
  h : ℚ
  wallRestitution : ℤ
deriving DecidableEq, Inhabited

/-- Source `MatchSpec`; the weapon record is modelled as a lookup function. -/
structure MatchSpec where
  seed : Nat
  weaponSetVersion : Option String
  sim : SimCfg
  arena : ArenaCfg
  weapons : String → Option WeaponDef
  ballA : BallSpec
  ballB : BallSpec
deriving Inhabited

/-- Source `Event` discriminated union. -/
inductive Event
  | wall (t : Nat) (id : Player) (side : Side)
  | collide (t : Nat) (a : Player) (b : Player)
  | hit (t : Nat) (fromId : Player) (toId : Player) (dmg : ℤ)
  | dead (t : Nat) (id : Player)
  | timeout (t : Nat) (winner : Player)
deriving DecidableEq, Inhabited

/-- Source `BallState` (all spatial fields already scaled to integers). -/
structure BallState where
  id : Player
  hp : ℤ
  r : ℤ
  pos : VecZ
  vel : VecZ
  theta : Nat
  omega : Nat
  weaponReach : ℤ
  tipR : ℤ
  baseDamage : ℤ
  ramp : ℤ
  hitCount : Nat
  alive : Bool
  speedMult : ℤ
  damageDealt : ℤ
  restitution : ℤ
deriving DecidableEq, Inhabited

/-- Source `SimState`.  The `rng : () => number` closure created by
`mulberry32(spec.seed)` is modelled by its internal counter `rng : Nat`;
drawing a value is `mulberry32Next`. -/
structure SimState where
  spec : MatchSpec
  SCALE : ℤ
  arenaW : ℤ
  arenaH : ℤ
  wallRest : ℤ
  tick : Nat
  A : BallState
  B : BallState
  events : List Event
  rng : Nat
  done : Bool
  winner : Option Player
deriving Inhabited

/-- Numeric bound of unsigned 32-bit values. -/
def UINT32 : Nat := 4294967296

/-- JavaScript `>>> 0` / `ToUint32` on an exact integer. -/
def u32 (n : Nat) : Nat := n % UINT32

/-- JavaScript `Math.imul` on unsigned 32-bit representatives. -/
def imul32 (a b : Nat) : Nat := (a * b) % UINT32

/-- One call of the closure returned by source `mulberry32`: given the
internal counter `t`, returns the produced value in `[0,1)` and the new
counter.  Bitwise operations act on the unsigned 32-bit representative of
the counter, exactly as JavaScript `ToInt32`/`ToUint32` coercions do. -/
def mulberry32Next (t : Nat) : ℚ × Nat :=
  let t1 := t + 0x6D2B79F5
  let tu := u32 t1
  let x1 := imul32 (Nat.xor tu (tu >>> 15)) (Nat.lor 1 tu)
  let inner := imul32 (Nat.xor x1 (x1 >>> 7)) (Nat.lor 61 x1)
  let x2 := Nat.xor x1 (u32 (x1 + inner))
  let out := Nat.xor x2 (x2 >>> 14)
  ((out : ℚ) / (UINT32 : ℚ), t1)

/-- Source constant `ANGLE_FULL = 65536`. -/
def ANGLE_FULL : Nat := 65536

/-- Source constant `TRIG_SCALE = 1_000_000`. -/
def TRIG_SCALE : ℤ := 1000000

/-- JavaScript `Math.round` on an exact rational: nearest integer, ties
rounding toward positive infinity. -/
def jround (q : ℚ) : ℤ := ⌊q + 1 / 2⌋

/-- Source helper `scaleVec`. -/
def scaleVec (v : Vec) (scale : ℤ) : VecZ :=
  { x := jround (v.x * (scale : ℚ)), y := jround (v.y * (scale : ℚ)) }

/-- Source helper `dist2`. -/
def dist2 (a b : VecZ) : ℤ :=
  let dx := a.x - b.x
  let dy := a.y - b.y
  dx * dx + dy * dy

/-- Rendering of a combatant tag, as interpolated by the source. -/
def playerTag : Player → String
  | Player.A => "A"
  | Player.B => "B"

/-- Rendering of a wall side tag, as interpolated by the source. -/
def sideTag : Side → String
  | Side.L => "L"
  | Side.R => "R"
  | Side.T => "T"
  | Side.B => "B"

/-- The per-event line of source `canonicalEventsString` (its `map` body). -/
def eventLine : Event → String
  | Event.hit t f g d =>
      toString t ++ "|hit|" ++ playerTag f ++ "|" ++ playerTag g ++ "|" ++ toString d
  | Event.dead t i => toString t ++ "|dead|" ++ playerTag i
  | Event.wall t i sd => toString t ++ "|wall|" ++ playerTag i ++ "|" ++ sideTag sd
  | Event.collide t a b => toString t ++ "|collide|" ++ playerTag a ++ "|" ++ playerTag b
  | Event.timeout t w => toString t ++ "|timeout|" ++ playerTag w

/-- Source `canonicalEventsString`: one line per event, joined by a newline. -/
def canonicalEventsString (events : List Event) : String :=
  String.intercalate "\n" (events.map eventLine)

section Engine

variable (COS SIN : Nat → ℤ) (approxInvSqrt : ℤ → ℚ)

/-- Source `weaponTipScaled`. -/
def weaponTipScaled (ball : BallState) : VecZ :=
  let c := COS ball.theta
  let s := SIN ball.theta
  { x := ball.pos.x + jround (((ball.weaponReach * c : ℤ) : ℚ) / (TRIG_SCALE : ℚ)),
    y := ball.pos.y + jround (((ball.weaponReach * s : ℤ) : ℚ) / (TRIG_SCALE : ℚ)) }

/-- The x-axis half of source `applyWallBounce`. -/
def bounceX (t : Nat) (arenaW rest : ℤ) (b : BallState) : BallState × List Event :=
  if b.pos.x - b.r < 0 then
    ({ b with pos := { b.pos with x := b.r },
              vel := { b.vel with x := jround (((-b.vel.x * rest : ℤ) : ℚ) / 1000) } },
     [Event.wall t b.id Side.L])
  else if b.pos.x + b.r > arenaW then
    ({ b with pos := { b.pos with x := arenaW - b.r },
              vel := { b.vel with x := jround (((-b.vel.x * rest : ℤ) : ℚ) / 1000) } },
     [Event.wall t b.id Side.R])
  else (b, [])

/-- The y-axis half of source `applyWallBounce`. -/
def bounceY (t : Nat) (arenaH rest : ℤ) (b : BallState) : BallState × List Event :=
  if b.pos.y - b.r < 0 then
    ({ b with pos := { b.pos with y := b.r },
              vel := { b.vel with y := jround (((-b.vel.y * rest : ℤ) : ℚ) / 1000) } },
     [Event.wall t b.id Side.T])
  else if b.pos.y + b.r > arenaH then
    ({ b with pos := { b.pos with y := arenaH - b.r },
              vel := { b.vel with y := jround (((-b.vel.y * rest : ℤ) : ℚ) / 1000) } },
     [Event.wall t b.id Side.B])
  else (b, [])

/-- Source `applyWallBounce`: x axis fully resolved, then y axis against the
already updated ball; events in push order (x event before y event). -/
def applyWallBounce (t : Nat) (arenaW arenaH rest : ℤ) (b : BallState) :
    BallState × List Event :=
  let px := bounceX t arenaW rest b
  let py := bounceY t arenaH rest px.1
  (py.1, px.2 ++ py.2)

/-- Source `resolveBallBallCollision`, returning the two updated balls and
the appended events. -/
def resolveBallBallCollision (t : Nat) (A B : BallState) :
    BallState × BallState × List Event :=
  if !A.alive || !B.alive then (A, B, [])
  else
    let dx := B.pos.x - A.pos.x
    let dy := B.pos.y - A.pos.y
    let rSum := A.r + B.r
    let d2 := dx * dx + dy * dy
    if d2 = 0 then (A, B, [])
    else if d2 > rSum * rSum then (A, B, [])
    else
      let invLen : ℚ := approxInvSqrt d2
      let nx : ℚ := (dx : ℚ) * invLen
      let ny : ℚ := (dy : ℚ) * invLen
      let rvx : ℚ := ((B.vel.x - A.vel.x : ℤ) : ℚ)
      let rvy : ℚ := ((B.vel.y - A.vel.y : ℤ) : ℚ)
      let velAlongNormal := rvx * nx + rvy * ny
      let e : ℚ := ((min A.restitution B.restitution : ℤ) : ℚ) / 1000
      let invMassA : ℚ := 1
      let invMassB : ℚ := 1
      let j := -(1 + e) * velAlongNormal / (invMassA + invMassB)
      let impulseX := j * nx
      let impulseY := j * ny
      let A1 := { A with vel := { x := A.vel.x - jround (impulseX * invMassA),
                                  y := A.vel.y - jround (impulseY * invMassA) } }
      let B1 := { B with vel := { x := B.vel.x + jround (impulseX * invMassB),
                                  y := B.vel.y + jround (impulseY * invMassB) } }
      let evs := [Event.collide t A1.id B1.id]
      let dist : ℚ := 1 / invLen
      let overlap : ℚ := (rSum : ℚ) - dist
      if overlap > 0 then
        let pushX := nx * (overlap / 2)
        let pushY := ny * (overlap / 2)
        ({ A1 with pos := { x := A1.pos.x - jround pushX, y := A1.pos.y - jround pushY } },
         { B1 with pos := { x := B1.pos.x + jround pushX, y := B1.pos.y + jround pushY } },
         evs)
      else (A1, B1, evs)

/-- Source `checkHit`: given attacker and victim, returns the updated
attacker, the updated victim, the appended events (in push order), and the
advanced shared random counter. -/
def checkHit (t : Nat) (SCALE : ℤ) (attacker victim : BallState) (rng : Nat) :
    BallState × BallState × List Event × Nat :=
  if !attacker.alive || !victim.alive then (attacker, victim, [], rng)
  else
    let tip := weaponTipScaled COS SIN attacker
    let rr := attacker.tipR + victim.r
    if dist2 tip victim.pos ≤ rr * rr then
      let att1 := { attacker with hitCount := attacker.hitCount + 1 }
      let dmg := att1.baseDamage + att1.ramp * ((att1.hitCount : ℤ) - 1)
      let vic1 := { victim with hp := victim.hp - dmg }
      let att2 := { att1 with damageDealt := att1.damageDealt + dmg }
      let ev1 := [Event.hit t att2.id vic1.id dmg]
      let d1 := mulberry32Next rng
      let jx := jround ((d1.1 - 1 / 2) * 20 * (SCALE : ℚ))
      let d2 := mulberry32Next d1.2
      let jy := jround ((d2.1 - 1 / 2) * 20 * (SCALE : ℚ))
      let vic2 := { vic1 with vel := { x := vic1.vel.x + jx, y := vic1.vel.y + jy } }
      if vic2.hp ≤ 0 then
        (att2, { vic2 with alive := false }, ev1 ++ [Event.dead t vic2.id], d2.2)
      else (att2, vic2, ev1, d2.2)
    else (attacker, victim, [], rng)

/-- Weapon rotation of pipeline step 1: `theta = (theta + omega) & 0xffff`. -/
def rotateBall (b : BallState) : BallState :=
  { b with theta := (b.theta + b.omega) &&& 0xffff }

/-- Translation of pipeline step 2:
`pos += Math.round(vel * speedMult / 1000)` per axis. -/
def moveBall (b : BallState) : BallState :=
  { b with pos := { x := b.pos.x + jround (((b.vel.x * b.speedMult : ℤ) : ℚ) / 1000),
                    y := b.pos.y + jround (((b.vel.y * b.speedMult : ℤ) : ℚ) / 1000) } }

/-- Pipeline steps 1 through 4 of source `stepSim` (rotation, translation,
wall bounce for A then B, ball-ball collision), with the events appended in
source push order.  The tick counter is not yet incremented. -/
def midTick (s : SimState) : SimState :=
  let A2 := moveBall (rotateBall s.A)
  let B2 := moveBall (rotateBall s.B)
  let wA := applyWallBounce s.tick s.arenaW s.arenaH s.wallRest A2
  let wB := applyWallBounce s.tick s.arenaW s.arenaH s.wallRest B2
  let c := resolveBallBallCollision approxInvSqrt s.tick wA.1 wB.1
  { s with A := c.1, B := c.2.1, events := s.events ++ wA.2 ++ wB.2 ++ c.2.2 }

/-- The timeout-resolution branch of source `stepSim` (tick counter at the
ceiling): the fixed tie-break ladder, the `timeout` event, and the
transition to finished.  The shared random stream advances exactly when
the ladder reaches its coin-flip case. -/
def timeoutStep (s : SimState) : SimState :=
  let wr : Player × Nat :=
    if s.A.hp ≠ s.B.hp then (if s.A.hp > s.B.hp then Player.A else Player.B, s.rng)
    else if s.A.damageDealt ≠ s.B.damageDealt then
      (if s.A.damageDealt > s.B.damageDealt then Player.A else Player.B, s.rng)
    else
      (if (mulberry32Next s.rng).1 < 1 / 2 then Player.A else Player.B,
       (mulberry32Next s.rng).2)
  { s with events := s.events ++ [Event.timeout s.tick wr.1],
           done := true, winner := some wr.1, rng := wr.2 }

/-- The physics branch of source `stepSim`: pipeline steps 1 through 4
(`midTick`), the two hit checks in fixed A-attacks-B then B-attacks-A
order, the tick increment, and the immediate transition to finished when a
combatant died during this tick. -/
def physicsStep (s : SimState) : SimState :=
  let m := midTick approxInvSqrt s
  let h1 := checkHit COS SIN m.tick m.SCALE m.A m.B m.rng
  let h2 := checkHit COS SIN m.tick m.SCALE h1.2.1 h1.1 h1.2.2.2
  let s1 := { m with A := h2.2.1, B := h2.1,
                     events := m.events ++ h1.2.2.1 ++ h2.2.2.1,
                     rng := h2.2.2.2, tick := m.tick + 1 }
  if !s1.A.alive || !s1.B.alive then
    { s1 with done := true,
              winner := some (if s1.A.alive then Player.A else Player.B) }
  else s1

/-- Source `stepSim`. -/
def stepSim (s : SimState) : SimState :=
  if s.done then s
  else if !s.A.alive || !s.B.alive then
    { s with done := true, winner := some (if s.A.alive then Player.A else Player.B) }
  else if s.spec.sim.maxTicks ≤ s.tick then timeoutStep s
  else physicsStep COS SIN approxInvSqrt s

/-- A full run: the caller advances a fresh state with `stepSim` until
`done`.  Since `stepSim` on a finished state is the identity and (theorem
`C4_termination_bound`) every fresh state is finished within
`maxTicks + 1` calls, iterating `maxTicks + 1` times is the loop
`while (!sim.done) stepSim(sim)` of the runner. -/
def runSim (s : SimState) : SimState :=
  (stepSim COS SIN approxInvSqrt)^[s.spec.sim.maxTicks + 1] s

end Engine

/-- Source `initBall`: resolves the weapon (`none` models the thrown
`Unknown weaponId` error), draws the initial weapon angle from the
per-combatant stream seeded by `(spec.seed ^ jitter) >>> 0`, and scales
the spatial quantities. -/
def initBall (spec : MatchSpec) (SCALE : ℤ) (b : BallSpec) (jitter : Nat) :
    Option BallState :=
  match spec.weapons b.weaponId with
  | none => none
  | some weapon =>
    let rng0 := u32 (Nat.xor spec.seed jitter)
    let q := (mulberry32Next rng0).1
    let theta0 := (Int.toNat ⌊q * (ANGLE_FULL : ℚ)⌋) &&& 0xffff
    some { id := b.id
           hp := b.hp
           r := jround (b.radius * (SCALE : ℚ))
           pos := scaleVec b.pos SCALE
           vel := scaleVec b.vel SCALE
           theta := theta0
           omega := weapon.omega
           weaponReach := jround (weapon.reach * (SCALE : ℚ))
           tipR := jround (weapon.tipRadius * (SCALE : ℚ))
           baseDamage := weapon.baseDamage
           ramp := weapon.ramp
           hitCount := 0
           alive := true
           speedMult := weapon.speedMult
           damageDealt := 0
           restitution := b.restitution.getD 1000 }

/-!
Concrete fixtures used by the witness theorems.  The engine theorems
quantify over the trig table and the inverse square root; the witnesses
instantiate them with the constant-zero functions below (any concrete
choice would do, since no engine theorem depends on the table values).
-/

/-- Concrete trig table instantiation for witnesses. -/
def zeroTable : Nat → ℤ := fun _ => 0

/-- Concrete inverse-square-root instantiation for witnesses. -/
def zeroInv : ℤ → ℚ := fun _ => 0

/-- Fixture combatant spec: stationary ball of radius 1 at `(px, 10)`. -/
def mkBallSpec (id : Player) (hp : ℤ) (px : ℚ) : BallSpec :=
  { id := id, hp := hp, radius := 1, pos := { x := px, y := 10 },
    vel := { x := 0, y := 0 }, weaponId := "w", restitution := none }

/-- Fixture match description: one weapon `"w"` with zero reach, tip radius
20, base damage `bd` and no ramp; combatants 10 units apart in a 100 by 100
arena, scale 1, tick ceiling `mt`. -/
def mkSpec (hpA hpB bd : ℤ) (mt : Nat) : MatchSpec :=
  { seed := 1
    weaponSetVersion := none
    sim := { scale := 1, maxTicks := mt }
    arena := { w := 100, h := 100, wallRestitution := 1000 }
    weapons := fun k =>
      if k = "w" then
        some { reach := 0, tipRadius := 20, omega := 3, baseDamage := bd,
               ramp := 0, speedMult := 1000 }
      else none
    ballA := mkBallSpec Player.A hpA 30
    ballB := mkBallSpec Player.B hpB 40 }

/-- Source `createSim`: builds the initial `SimState`; `none` models the
error thrown while resolving a weapon identifier, in which case no state
comes into existence. -/
def createSim (spec : MatchSpec) : Option SimState :=
  let SCALE := spec.sim.scale
  let arenaW := jround (spec.arena.w * (SCALE : ℚ))
  let arenaH := jround (spec.arena.h * (SCALE : ℚ))
  match initBall spec SCALE spec.ballA 0xA1B2C3D4,
        initBall spec SCALE spec.ballB 0xB4C3D2A1 with
  | some a, some b =>
    some { spec := spec
           SCALE := SCALE
           arenaW := arenaW
           arenaH := arenaH
           wallRest := spec.arena.wallRestitution
           tick := 0
           A := a
           B := b
           events := []
           rng := u32 spec.seed
           done := false
           winner := none }
  | _, _ => none

/-- Fixture: immediate-timeout match (tick ceiling 0, distinct health). -/
def timeoutSpec : MatchSpec := mkSpec 10 5 5 0

/-- Fixture: the fresh state of `timeoutSpec`. -/
def timeoutState : SimState := (createSim timeoutSpec).getD default

/-- Fixture: match in which A's first hit kills B (health 3, damage 5). -/
def killSpec : MatchSpec := mkSpec 10 3 5 5

/-- Fixture: the fresh state of `killSpec`. -/
def killState : SimState := (createSim killSpec).getD default

/-- Fixture: match whose weapon has negative base damage. -/
def negSpec : MatchSpec := mkSpec 10 3 (-5) 5

/-- Fixture: the fresh state of `negSpec`. -/
def negState : SimState := (createSim negSpec).getD default

/-- Fixture: match description whose combatant A references an absent weapon. -/
def badWeaponSpec : MatchSpec :=
  { mkSpec 1 1 1 1 with ballA := { mkBallSpec Player.A 1 30 with weaponId := "zz" } }

/-- Fixture combatant state at scaled position `(50, 50)`. -/
def coincBallA : BallState :=
  { id := Player.A, hp := 10, r := 5, pos := { x := 50, y := 50 },
    vel := { x := 3, y := 4 }, theta := 0, omega := 3, weaponReach := 0,
    tipR := 20, baseDamage := 5, ramp := 0, hitCount := 0, alive := true,
    speedMult := 1000, damageDealt := 0, restitution := 1000 }

/-- Fixture combatant state coincident with `coincBallA`. -/
def coincBallB : BallState := { coincBallA with id := Player.B }

/-- Equality of all non-spatial combatant fields: the pipeline stages of
steps 1 through 4 (rotation, translation, wall bounce, collision) touch
only `pos`, `vel` and `theta`, which this relation ignores. -/
def sameStats (a b : BallState) : Prop :=
  a.id = b.id ∧ a.hp = b.hp ∧ a.r = b.r ∧ a.tipR = b.tipR ∧
  a.weaponReach = b.weaponReach ∧ a.baseDamage = b.baseDamage ∧
  a.ramp = b.ramp ∧ a.hitCount = b.hitCount ∧ a.alive = b.alive ∧
  a.damageDealt = b.damageDealt ∧ a.restitution = b.restitution

/-! ## Helper lemmas -/

section BranchLemmas

variable (COS SIN : Nat → ℤ) (f : ℤ → ℚ)

/-- Advancing a finished match is a no-op. -/
theorem stepSim_of_done (s : SimState) (h : s.done = true) :
    stepSim COS SIN f s = s := by
  simp [stepSim, h]

/-- The early-exit guard: a running state with a dead combatant finishes
immediately with the survivor as winner, with no pipeline execution. -/
theorem stepSim_guard (s : SimState) (h : s.done = false)
    (h2 : s.A.alive = false ∨ s.B.alive = false) :
    stepSim COS SIN f s =
      { s with done := true,
               winner := some (if s.A.alive then Player.A else Player.B) } := by
  rcases h2 with h2 | h2 <;> simp [stepSim, h, h2]

/-- On a running state with both combatants alive and the tick counter at
the ceiling, `stepSim` is the timeout branch. -/
theorem stepSim_timeout_eq (s : SimState) (h : s.done = false)
    (ha : s.A.alive = true) (hb : s.B.alive = true)
    (ht : s.spec.sim.maxTicks ≤ s.tick) :
    stepSim COS SIN f s = timeoutStep s := by
  simp [stepSim, h, ha, hb, ht]

/-- On a running state with both combatants alive and the tick counter
below the ceiling, `stepSim` is the physics branch. -/
theorem stepSim_phys_eq (s : SimState) (h : s.done = false)
    (ha : s.A.alive = true) (hb : s.B.alive = true)
    (ht : s.tick < s.spec.sim.maxTicks) :
    stepSim COS SIN f s = physicsStep COS SIN f s := by
  simp [stepSim, h, ha, hb, Nat.not_le.mpr ht]

end BranchLemmas

section Preservation

variable (COS SIN : Nat → ℤ) (f : ℤ → ℚ)

/-- Reflexivity of `sameStats`. -/
theorem sameStats_refl (a : BallState) : sameStats a a := by
  simp [sameStats]

/-- Transitivity of `sameStats`. -/
theorem sameStats_trans {a b c : BallState} (h1 : sameStats a b)
    (h2 : sameStats b c) : sameStats a c := by
  obtain ⟨a1, a2, a3, a4, a5, a6, a7, a8, a9, a10, a11⟩ := h1
  obtain ⟨b1, b2, b3, b4, b5, b6, b7, b8, b9, b10, b11⟩ := h2
  exact ⟨a1.trans b1, a2.trans b2, a3.trans b3, a4.trans b4, a5.trans b5,
    a6.trans b6, a7.trans b7, a8.trans b8, a9.trans b9, a10.trans b10,
    a11.trans b11⟩

/-- Rotation touches only `theta`. -/
theorem rotateBall_stats (b : BallState) : sameStats (rotateBall b) b := by
  simp [rotateBall, sameStats]

/-- Translation touches only `pos`. -/
theorem moveBall_stats (b : BallState) : sameStats (moveBall b) b := by
  simp [moveBall, sameStats]

/-- The x wall bounce touches only `pos` and `vel`. -/
theorem bounceX_stats (t : Nat) (w rest : ℤ) (b : BallState) :
    sameStats (bounceX t w rest b).1 b := by
  unfold bounceX
  split_ifs <;> simp [sameStats]

/-- The y wall bounce touches only `pos` and `vel`. -/
theorem bounceY_stats (t : Nat) (h rest : ℤ) (b : BallState) :
    sameStats (bounceY t h rest b).1 b := by
  unfold bounceY
  split_ifs <;> simp [sameStats]

/-- Wall reflection touches only `pos` and `vel`. -/
theorem applyWallBounce_stats (t : Nat) (w h rest : ℤ) (b : BallState) :
    sameStats (applyWallBounce t w h rest b).1 b :=
  sameStats_trans (bounceY_stats t h rest (bounceX t w rest b).1)
    (bounceX_stats t w rest b)

/-- Collision resolution touches only `pos` and `vel` of the first ball. -/
theorem resolve_stats_A (t : Nat) (A B : BallState) :
    sameStats (resolveBallBallCollision f t A B).1 A := by
  simp only [resolveBallBallCollision]
  split_ifs <;> simp [sameStats]

/-- Collision resolution touches only `pos` and `vel` of the second ball. -/
theorem resolve_stats_B (t : Nat) (A B : BallState) :
    sameStats (resolveBallBallCollision f t A B).2.1 B := by
  simp only [resolveBallBallCollision]
  split_ifs <;> simp [sameStats]

/-- Pipeline steps 1 through 4 touch only spatial fields of combatant A. -/
theorem midTick_stats_A (s : SimState) : sameStats (midTick f s).A s.A := by
  refine sameStats_trans (resolve_stats_A f s.tick _ _) ?_
  refine sameStats_trans (applyWallBounce_stats s.tick _ _ _ _) ?_
  exact sameStats_trans (moveBall_stats _) (rotateBall_stats _)

/-- Pipeline steps 1 through 4 touch only spatial fields of combatant B. -/
theorem midTick_stats_B (s : SimState) : sameStats (midTick f s).B s.B := by
  refine sameStats_trans (resolve_stats_B f s.tick _ _) ?_
  refine sameStats_trans (applyWallBounce_stats s.tick _ _ _ _) ?_
  exact sameStats_trans (moveBall_stats _) (rotateBall_stats _)

end Preservation

section CheckHitLemmas

variable (C S : Nat → ℤ)

/-- A hit check with a dead participant changes nothing and appends no
event. -/
theorem checkHit_not_alive (t : Nat) (SC : ℤ)
    (att vic : BallState) (rng : Nat)
    (h : att.alive = false ∨ vic.alive = false) :
    checkHit C S t SC att vic rng = (att, vic, [], rng) := by
  rcases h with h | h <;> simp [checkHit, h]

/-- A hit check whose tip-to-victim distance test fails changes nothing. -/
theorem checkHit_miss (t : Nat) (SC : ℤ)
    (att vic : BallState) (rng : Nat)
    (hd : ¬ dist2 (weaponTipScaled C S att) vic.pos ≤
        (att.tipR + vic.r) * (att.tipR + vic.r)) :
    checkHit C S t SC att vic rng = (att, vic, [], rng) := by
  by_cases ha : att.alive
  · by_cases hv : vic.alive
    · simp [checkHit, ha, hv, hd]
    · simp [checkHit, Bool.eq_false_iff.mpr hv]
  · simp [checkHit, Bool.eq_false_iff.mpr ha]

/-- A landed hit: the attacker's hit count and damage dealt rise, the
victim loses exactly `baseDamage + ramp * (hitCount - 1)` health (with
`hitCount` the attacker's count at this hit), the victim's velocity gets
the two-draw jitter, a `hit` event is appended, immediately followed by a
`dead` event exactly when the victim's resulting health is `≤ 0`, in which
case the victim's alive flag is cleared. -/
theorem checkHit_hit (t : Nat) (SC : ℤ)
    (att vic : BallState) (rng : Nat)
    (ha : att.alive = true) (hv : vic.alive = true)
    (hd : dist2 (weaponTipScaled C S att) vic.pos ≤
        (att.tipR + vic.r) * (att.tipR + vic.r)) :
    checkHit C S t SC att vic rng =
      ({ att with hitCount := att.hitCount + 1,
                  damageDealt := att.damageDealt +
                    (att.baseDamage + att.ramp * (att.hitCount : ℤ)) },
       { vic with hp := vic.hp - (att.baseDamage + att.ramp * (att.hitCount : ℤ)),
                  vel := { x := vic.vel.x +
                             jround (((mulberry32Next rng).1 - 1 / 2) * 20 * (SC : ℚ)),
                           y := vic.vel.y +
                             jround (((mulberry32Next (mulberry32Next rng).2).1 - 1 / 2) * 20 * (SC : ℚ)) },
                  alive := if vic.hp - (att.baseDamage + att.ramp * (att.hitCount : ℤ)) ≤ 0
                           then false else vic.alive },
       Event.hit t att.id vic.id (att.baseDamage + att.ramp * (att.hitCount : ℤ)) ::
         (if vic.hp - (att.baseDamage + att.ramp * (att.hitCount : ℤ)) ≤ 0
          then [Event.dead t vic.id] else []),
       (mulberry32Next (mulberry32Next rng).2).2) := by
  have hcast : ((att.hitCount + 1 : ℕ) : ℤ) - 1 = (att.hitCount : ℤ) := by
    push_cast
    ring
  by_cases hk : vic.hp - (att.baseDamage + att.ramp * (att.hitCount : ℤ)) ≤ 0
  · simp [checkHit, ha, hv, hd, hcast, hk]
  · simp [checkHit, ha, hv, hd, hcast, hk]

/-- The hit check never changes the attacker's health, alive flag,
identity, base damage or ramp. -/
theorem checkHit_att_fields (t : Nat) (SC : ℤ)
    (att vic : BallState) (rng : Nat) :
    (checkHit C S t SC att vic rng).1.hp = att.hp ∧
    (checkHit C S t SC att vic rng).1.alive = att.alive ∧
    (checkHit C S t SC att vic rng).1.id = att.id ∧
    (checkHit C S t SC att vic rng).1.baseDamage = att.baseDamage ∧
    (checkHit C S t SC att vic rng).1.ramp = att.ramp := by
  simp only [checkHit]
  split_ifs <;> simp

/-- The hit check never changes the victim's identity, hit count, damage
dealt, base damage or ramp. -/
theorem checkHit_vic_fields (t : Nat) (SC : ℤ)
    (att vic : BallState) (rng : Nat) :
    (checkHit C S t SC att vic rng).2.1.id = vic.id ∧
    (checkHit C S t SC att vic rng).2.1.hitCount = vic.hitCount ∧
    (checkHit C S t SC att vic rng).2.1.damageDealt = vic.damageDealt ∧
    (checkHit C S t SC att vic rng).2.1.baseDamage = vic.baseDamage ∧
    (checkHit C S t SC att vic rng).2.1.ramp = vic.ramp := by
  simp only [checkHit]
  split_ifs <;> simp

end CheckHitLemmas

section TickLemmas

variable (C S : Nat → ℤ) (f : ℤ → ℚ)

/-- The physics branch increments the tick counter by exactly one. -/
theorem physicsStep_tick (s : SimState) :
    (physicsStep C S f s).tick = s.tick + 1 := by
  simp only [physicsStep]
  split_ifs <;> rfl

/-- The physics branch does not change the match description. -/
theorem physicsStep_spec (s : SimState) :
    (physicsStep C S f s).spec = s.spec := by
  simp only [physicsStep]
  split_ifs <;> rfl

/-- `stepSim` does not change the match description. -/
theorem stepSim_spec (s : SimState) :
    (stepSim C S f s).spec = s.spec := by
  simp only [stepSim, physicsStep]
  split_ifs <;> rfl

/-- Each `stepSim` call either finishes the match or increments the tick
counter by exactly one. -/
theorem stepSim_progress (s : SimState) :
    (stepSim C S f s).done = true ∨ (stepSim C S f s).tick = s.tick + 1 := by
  unfold stepSim
  by_cases h1 : s.done = true
  · simp [h1]
  · by_cases h2 : (!s.A.alive || !s.B.alive) = true
    · simp [h1, h2]
    · by_cases h3 : s.spec.sim.maxTicks ≤ s.tick
      · simp [h1, h2, h3, timeoutStep]
      · simp [h1, h2, h3, physicsStep_tick]

/-- Each `stepSim` call keeps the tick counter, or increments it by one
after seeing it strictly below the ceiling. -/
theorem stepSim_tick_cases (s : SimState) :
    (stepSim C S f s).tick = s.tick ∨
    ((stepSim C S f s).tick = s.tick + 1 ∧ s.tick < s.spec.sim.maxTicks) := by
  unfold stepSim
  by_cases h1 : s.done = true
  · simp [h1]
  · by_cases h2 : (!s.A.alive || !s.B.alive) = true
    · simp [h1, h2]
    · by_cases h3 : s.spec.sim.maxTicks ≤ s.tick
      · simp [h1, h2, h3, timeoutStep]
      · simp [h1, h2, h3, physicsStep_tick, Nat.not_le.mp h3]

/-- A `stepSim` call on a state whose tick counter has reached the ceiling
finishes the match. -/
theorem stepSim_done_of_ceiling (s : SimState)
    (h : s.spec.sim.maxTicks ≤ s.tick) : (stepSim C S f s).done = true := by
  unfold stepSim
  by_cases h1 : s.done = true
  · simp [h1]
  · by_cases h2 : (!s.A.alive || !s.B.alive) = true
    · simp [h1, h2]
    · simp [h1, h2, h, timeoutStep]

end TickLemmas

section IterLemmas

variable (C S : Nat → ℤ) (f : ℤ → ℚ)

theorem stepSim_done_mono (s : SimState) (h : s.done = true) :
    (stepSim C S f s).done = true := by
  rw [stepSim_of_done C S f s h]
  exact h

theorem iterate_spec (s : SimState) (n : Nat) :
    ((stepSim C S f)^[n] s).spec = s.spec := by
  induction n with
  | zero => rfl
  | succ n ih => rw [Function.iterate_succ_apply', stepSim_spec, ih]

theorem iterate_tick_le (s : SimState) (h : s.tick ≤ s.spec.sim.maxTicks) :
    ∀ n, ((stepSim C S f)^[n] s).tick ≤ s.spec.sim.maxTicks := by
  intro n
  induction n with
  | zero => exact h
  | succ n ih =>
    rw [Function.iterate_succ_apply']
    rcases stepSim_tick_cases C S f ((stepSim C S f)^[n] s) with hc | ⟨hc, hlt⟩
    · rw [hc]
      exact ih
    · rw [hc]
      rw [iterate_spec] at hlt
      omega

theorem iterate_done_or_tick (s : SimState) (n : Nat) :
    ((stepSim C S f)^[n] s).done = true ∨
    ((stepSim C S f)^[n] s).tick = s.tick + n := by
  induction n with
  | zero => exact Or.inr rfl
  | succ n ih =>
    rw [Function.iterate_succ_apply']
    rcases ih with hd | ht
    · exact Or.inl (stepSim_done_mono C S f _ hd)
    · rcases stepSim_progress C S f ((stepSim C S f)^[n] s) with hd | hi
      · exact Or.inl hd
      · right
        rw [hi, ht]
        omega

theorem runSim_done (s : SimState) (h0 : s.tick = 0) :
    (runSim C S f s).done = true := by
  unfold runSim
  rw [Function.iterate_succ_apply']
  rcases iterate_done_or_tick C S f s s.spec.sim.maxTicks with hd | ht
  · exact stepSim_done_mono C S f _ hd
  · apply stepSim_done_of_ceiling
    rw [iterate_spec, ht, h0]
    omega

end IterLemmas

theorem initBall_none_iff (spec : MatchSpec) (SC : ℤ) (b : BallSpec) (j : Nat) :
    initBall spec SC b j = none ↔ spec.weapons b.weaponId = none := by
  unfold initBall
  cases hw : spec.weapons b.weaponId <;> simp

theorem initBall_some_fields (spec : MatchSpec) (SC : ℤ) (b : BallSpec) (j : Nat)
    (st : BallState) (h : initBall spec SC b j = some st) :
    st.alive = true ∧ st.hitCount = 0 ∧ st.damageDealt = 0 ∧
    st.id = b.id ∧ st.hp = b.hp := by
  unfold initBall at h
  split at h
  · exact absurd h (by simp)
  · obtain rfl := (Option.some.inj h).symm
    exact ⟨rfl, rfl, rfl, rfl, rfl⟩

theorem createSim_fields (spec : MatchSpec) (s : SimState)
    (h : createSim spec = some s) :
    s.spec = spec ∧ s.tick = 0 ∧ s.done = false ∧ s.winner = none ∧
    s.events = [] ∧ s.A.alive = true ∧ s.B.alive = true ∧
    s.A.id = spec.ballA.id ∧ s.B.id = spec.ballB.id ∧
    s.A.hp = spec.ballA.hp ∧ s.B.hp = spec.ballB.hp ∧
    s.A.hitCount = 0 ∧ s.B.hitCount = 0 := by
  simp only [createSim] at h
  split at h
  · next a b hA hB =>
    obtain rfl := (Option.some.inj h).symm
    obtain ⟨a1, a2, a3, a4, a5⟩ := initBall_some_fields _ _ _ _ _ hA
    obtain ⟨b1, b2, b3, b4, b5⟩ := initBall_some_fields _ _ _ _ _ hB
    exact ⟨rfl, rfl, rfl, rfl, rfl, a1, b1, a4, b4, a5, b5, a2, b2⟩
  · exact absurd h (by simp)

/-!
The Batteries rational-number operations are `@[irreducible]`; the concrete
witness evaluations below run the engine on explicit inputs inside `decide`,
which needs them restored to their default reducibility.
-/
attribute [local semireducible] Rat.add Rat.mul Rat.inv Rat.sub Rat.ofScientific

/-- Helper: unfolding of the `String.intercalate` accumulator loop. -/
theorem intercalate_go_cons (s : String) :
    ∀ (l : List String) (acc a : String),
      String.intercalate.go acc s (a :: l) = acc ++ s ++ String.intercalate.go a s l := by
  intro l
  induction l with
  | nil =>
    intro acc a
    rfl
  | cons b bs ih =>
    intro acc a
    show String.intercalate.go (acc ++ s ++ a) s (b :: bs) = _
    rw [ih (acc ++ s ++ a) b, ih a b]
    simp [String.append_assoc]

/-- Helper: `String.intercalate` on a list with at least two elements. -/
theorem intercalate_cons_of_ne (s x : String) (rest : List String) (h : rest ≠ []) :
    String.intercalate s (x :: rest) = x ++ s ++ String.intercalate s rest := by
  cases rest with
  | nil => exact absurd rfl h
  | cons y ys =>
    show String.intercalate.go x s (y :: ys) = _
    rw [intercalate_go_cons]
    rfl

/-- C9: `createSim` fails (the source throws `Unknown weaponId`, modelled
as `none`) exactly when at least one combatant spec's weapon identifier is
absent from the weapon mapping.  The failure is decided at construction
time, before any tick is simulated, and in the failing case no
`SimState` comes into existence. -/
theorem C9_construction_error (spec : MatchSpec) :
    createSim spec = none ↔
      (spec.weapons spec.ballA.weaponId = none ∨
       spec.weapons spec.ballB.weaponId = none) := by
  simp only [createSim]
  cases hA : initBall spec spec.sim.scale spec.ballA 0xA1B2C3D4 with
  | none =>
    simp [(initBall_none_iff spec spec.sim.scale spec.ballA 0xA1B2C3D4).mp hA]
  | some a =>
    cases hB : initBall spec spec.sim.scale spec.ballB 0xB4C3D2A1 with
    | none =>
      simp [(initBall_none_iff spec spec.sim.scale spec.ballB 0xB4C3D2A1).mp hB]
    | some b =>
      constructor
      · intro h
        simp at h
      · rintro (h | h)
        · rw [(initBall_none_iff spec spec.sim.scale spec.ballA 0xA1B2C3D4).mpr h] at hA
          cases hA
        · rw [(initBall_none_iff spec spec.sim.scale spec.ballB 0xB4C3D2A1).mpr h] at hB
          cases hB

/-- Witness for C9: a description whose combatant A names the absent
weapon `"zz"` yields no simulation state, via the theorem's reverse
direction at this concrete input. -/
theorem C9_construction_error_witness : createSim badWeaponSpec = none :=
  (C9_construction_error badWeaponSpec).mpr (Or.inl (by decide))

/-- C1: for a fixed match description whose weapon identifiers resolve,
two full runs on fresh states produced by `createSim` and advanced by
`stepSim` to completion yield the same finished state: identical canonical
event-log strings and identical winners.  In this embedding every engine
function is a pure function of the description and the fixed process-wide
constants (trig table, inverse square root), over which the theorem
quantifies; there is no dependence on run count or environment. -/
theorem C1_run_determinism (COS SIN : Nat → ℤ) (approxInvSqrt : ℤ → ℚ)
    (spec : MatchSpec) (s₁ s₂ : SimState)
    (h₁ : createSim spec = some s₁) (h₂ : createSim spec = some s₂) :
    (runSim COS SIN approxInvSqrt s₁).done = true ∧
    (runSim COS SIN approxInvSqrt s₂).done = true ∧
    canonicalEventsString (runSim COS SIN approxInvSqrt s₁).events =
      canonicalEventsString (runSim COS SIN approxInvSqrt s₂).events ∧
    (runSim COS SIN approxInvSqrt s₁).winner =
      (runSim COS SIN approxInvSqrt s₂).winner := by
  obtain rfl : s₁ = s₂ := Option.some.inj (h₁.symm.trans h₂)
  have hd := runSim_done COS SIN approxInvSqrt s₁ (createSim_fields spec s₁ h₁).2.1
  exact ⟨hd, hd, rfl, rfl⟩

/-- Witness for C1 at the concrete description `timeoutSpec`. -/
theorem C1_run_determinism_witness :
    createSim timeoutSpec = some timeoutState ∧
    (runSim zeroTable zeroTable zeroInv timeoutState).done = true ∧
    canonicalEventsString (runSim zeroTable zeroTable zeroInv timeoutState).events =
      canonicalEventsString (runSim zeroTable zeroTable zeroInv timeoutState).events ∧
    (runSim zeroTable zeroTable zeroInv timeoutState).winner =
      (runSim zeroTable zeroTable zeroInv timeoutState).winner := by
  have h : createSim timeoutSpec = some timeoutState := by rfl
  have main := C1_run_determinism zeroTable zeroTable zeroInv timeoutSpec
    timeoutState timeoutState h h
  exact ⟨h, main.1, main.2.2.1, main.2.2.2⟩

/-- C4: from any state built by `createSim`, the tick counter never
exceeds the configured ceiling at any point of any sequence of `stepSim`
calls, and the match is finished after at most `maxTicks + 1` calls. -/
theorem C4_termination_bound (COS SIN : Nat → ℤ) (approxInvSqrt : ℤ → ℚ)
    (spec : MatchSpec) (s : SimState) (h : createSim spec = some s) :
    (∀ n : Nat, ((stepSim COS SIN approxInvSqrt)^[n] s).tick ≤ spec.sim.maxTicks) ∧
    ((stepSim COS SIN approxInvSqrt)^[spec.sim.maxTicks + 1] s).done = true := by
  obtain ⟨hspec, htick, -⟩ := createSim_fields spec s h
  constructor
  · intro n
    have hb : s.tick ≤ s.spec.sim.maxTicks := by
      rw [htick]
      exact Nat.zero_le _
    have := iterate_tick_le COS SIN approxInvSqrt s hb n
    rwa [hspec] at this
  · have := runSim_done COS SIN approxInvSqrt s htick
    unfold runSim at this
    rwa [hspec] at this

/-- Witness for C4 at the concrete description `timeoutSpec`
(tick ceiling 0, finished after one call). -/
theorem C4_termination_bound_witness :
    createSim timeoutSpec = some timeoutState ∧
    ((stepSim zeroTable zeroTable zeroInv)^[5] timeoutState).tick ≤
      timeoutSpec.sim.maxTicks ∧
    ((stepSim zeroTable zeroTable zeroInv)^[timeoutSpec.sim.maxTicks + 1]
      timeoutState).done = true := by
  have h : createSim timeoutSpec = some timeoutState := by rfl
  have main := C4_termination_bound zeroTable zeroTable zeroInv timeoutSpec timeoutState h
  exact ⟨h, main.1 5, main.2⟩

/-- C7: the canonical event-log string renders one line per event, in
emission order, fields separated by the `|` delimiter in the per-kind
layouts `tick|hit|from|to|damage`, `tick|dead|combatant`,
`tick|wall|combatant|side`, `tick|collide|a|b`, `tick|timeout|winner`,
with the damage field serialized as the literal integer value and lines
joined by a single newline. -/
theorem C7_canonical_event_log :
    (∀ (t : Nat) (a b : Player) (d : ℤ),
      canonicalEventsString [Event.hit t a b d] =
        toString t ++ "|hit|" ++ playerTag a ++ "|" ++ playerTag b ++ "|" ++ toString d) ∧
    (∀ (t : Nat) (i : Player),
      canonicalEventsString [Event.dead t i] = toString t ++ "|dead|" ++ playerTag i) ∧
    (∀ (t : Nat) (i : Player) (sd : Side),
      canonicalEventsString [Event.wall t i sd] =
        toString t ++ "|wall|" ++ playerTag i ++ "|" ++ sideTag sd) ∧
    (∀ (t : Nat) (a b : Player),
      canonicalEventsString [Event.collide t a b] =
        toString t ++ "|collide|" ++ playerTag a ++ "|" ++ playerTag b) ∧
    (∀ (t : Nat) (w : Player),
      canonicalEventsString [Event.timeout t w] =
        toString t ++ "|timeout|" ++ playerTag w) ∧
    (∀ (e : Event) (rest : List Event), rest ≠ [] →
      canonicalEventsString (e :: rest) =
        canonicalEventsString [e] ++ "\n" ++ canonicalEventsString rest) := by
  refine ⟨fun _ _ _ _ => rfl, fun _ _ => rfl, fun _ _ _ => rfl, fun _ _ _ => rfl,
    fun _ _ => rfl, fun e rest h => ?_⟩
  show String.intercalate "\n" (eventLine e :: rest.map eventLine) = _
  rw [intercalate_cons_of_ne _ _ _ (by simpa using h)]
  rfl

/-- Witness for C7: the two-event log of a killing hit renders as two
lines joined by one newline, and the single hit line has the claimed
layout with the damage as a literal integer. -/
theorem C7_canonical_event_log_witness :
    canonicalEventsString [Event.hit 0 Player.A Player.B 5, Event.dead 0 Player.B] =
      canonicalEventsString [Event.hit 0 Player.A Player.B 5] ++ "\n" ++
        canonicalEventsString [Event.dead 0 Player.B] ∧
    canonicalEventsString [Event.hit 0 Player.A Player.B 5] = "0|hit|A|B|5" := by
  constructor
  · exact C7_canonical_event_log.2.2.2.2.2 (Event.hit 0 Player.A Player.B 5)
      [Event.dead 0 Player.B] (by decide)
  · rfl

/-- Counterexample for C5 as stated: the scaling conversion uses
JavaScript `Math.round`, whose ties round toward positive infinity, not
away from zero: scaling the vector `(-0.5, -2.5)` by 1 yields `(0, -2)`,
not the `(-1, -3)` that ties-away-from-zero rounding requires. -/
theorem C5_rounding_counterexample :
    scaleVec { x := -(1 / 2 : ℚ), y := -(5 / 2 : ℚ) } 1 = { x := 0, y := -2 } ∧
    scaleVec { x := -(1 / 2 : ℚ), y := -(5 / 2 : ℚ) } 1 ≠ { x := -1, y := -3 } := by
  constructor
  · decide
  · decide

/-- C5 amended: every conversion into the scaled integer domain (the
`scaleVec` scaling of positions and velocities, the radius/reach/tip
scaling in `initBall`, and the per-tick division in `moveBall`) uses
`jround`, which rounds to the nearest integer with ties rounding toward
positive infinity (JavaScript `Math.round`): `jround` is within 1/2 of its
argument, and on half-integers it picks the greater integer (so -0.5
rounds to 0 and -2.5 rounds to -2). -/
theorem C5_rounding_semantics :
    (∀ q : ℚ, q - 1 / 2 ≤ (jround q : ℚ) ∧ (jround q : ℚ) ≤ q + 1 / 2) ∧
    (∀ n : ℤ, jround ((n : ℚ) + 1 / 2) = n + 1) ∧
    (∀ n : ℤ, jround ((n : ℚ) - 1 / 2) = n) ∧
    (∀ (v : Vec) (scale : ℤ),
      scaleVec v scale =
        { x := jround (v.x * (scale : ℚ)), y := jround (v.y * (scale : ℚ)) }) ∧
    (∀ b : BallState,
      (moveBall b).pos.x = b.pos.x + jround (((b.vel.x * b.speedMult : ℤ) : ℚ) / 1000) ∧
      (moveBall b).pos.y = b.pos.y + jround (((b.vel.y * b.speedMult : ℤ) : ℚ) / 1000)) ∧
    (∀ (spec : MatchSpec) (SC : ℤ) (b : BallSpec) (j : Nat) (w : WeaponDef)
        (st : BallState),
      spec.weapons b.weaponId = some w → initBall spec SC b j = some st →
      st.r = jround (b.radius * (SC : ℚ)) ∧ st.pos = scaleVec b.pos SC ∧
      st.vel = scaleVec b.vel SC ∧ st.weaponReach = jround (w.reach * (SC : ℚ)) ∧
      st.tipR = jround (w.tipRadius * (SC : ℚ))) := by
  refine ⟨?_, ?_, ?_, fun _ _ => rfl, fun _ => ⟨rfl, rfl⟩, ?_⟩
  · intro q
    have h1 := Int.floor_le (q + 1 / 2)
    have h2 := Int.lt_floor_add_one (q + 1 / 2)
    rw [jround]
    constructor <;> linarith
  · intro n
    have h : (n : ℚ) + 1 / 2 + 1 / 2 = ((n + 1 : ℤ) : ℚ) := by
      push_cast
      ring
    rw [jround, h, Int.floor_intCast]
  · intro n
    have h : (n : ℚ) - 1 / 2 + 1 / 2 = ((n : ℤ) : ℚ) := by
      ring_nf
    rw [jround, h, Int.floor_intCast]
  · intro spec SC b j w st h1 h2
    unfold initBall at h2
    rw [h1] at h2
    obtain rfl := (Option.some.inj h2).symm
    exact ⟨rfl, rfl, rfl, rfl, rfl⟩

/-- Witness for the amended C5 at a concrete description. -/
theorem C5_rounding_semantics_witness :
    (mkSpec 10 5 5 0).weapons "w" =
      some { reach := 0, tipRadius := 20, omega := 3, baseDamage := 5,
             ramp := 0, speedMult := 1000 } ∧
    initBall (mkSpec 10 5 5 0) 1 (mkBallSpec Player.A 10 30) 0xA1B2C3D4 =
      some ((initBall (mkSpec 10 5 5 0) 1 (mkBallSpec Player.A 10 30)
        0xA1B2C3D4).getD default) ∧
    ((initBall (mkSpec 10 5 5 0) 1 (mkBallSpec Player.A 10 30) 0xA1B2C3D4).getD
        default).r = jround ((1 : ℚ) * ((1 : ℤ) : ℚ)) ∧
    ((initBall (mkSpec 10 5 5 0) 1 (mkBallSpec Player.A 10 30) 0xA1B2C3D4).getD
        default).tipR = jround ((20 : ℚ) * ((1 : ℤ) : ℚ)) := by
  have h1 : (mkSpec 10 5 5 0).weapons "w" =
      some { reach := 0, tipRadius := 20, omega := 3, baseDamage := 5,
             ramp := 0, speedMult := 1000 } := by decide
  have h2 : initBall (mkSpec 10 5 5 0) 1 (mkBallSpec Player.A 10 30) 0xA1B2C3D4 =
      some ((initBall (mkSpec 10 5 5 0) 1 (mkBallSpec Player.A 10 30)
        0xA1B2C3D4).getD default) := by rfl
  have main := C5_rounding_semantics.2.2.2.2.2 (mkSpec 10 5 5 0) 1
    (mkBallSpec Player.A 10 30) 0xA1B2C3D4 _ _ h1 h2
  exact ⟨h1, h2, main.1, main.2.2.2.2⟩

/-- C8: body-body collision resolution is guarded: with both combatants
alive it returns with no state change when the squared center distance is
zero (coincident centers) or exceeds the squared radius sum, the squared
distance is strictly positive whenever neither guard fires, and the result
depends on the inverse-square-root function only through its values at
strictly positive arguments, so the inverse square root is never evaluated
at zero and coincident combatants cannot crash the simulation. -/
theorem C8_collision_guards (f : ℤ → ℚ) (t : Nat) (A B : BallState)
    (ha : A.alive = true) (hb : B.alive = true) :
    ((B.pos.x - A.pos.x) * (B.pos.x - A.pos.x) +
        (B.pos.y - A.pos.y) * (B.pos.y - A.pos.y) = 0 →
      resolveBallBallCollision f t A B = (A, B, [])) ∧
    ((B.pos.x - A.pos.x) * (B.pos.x - A.pos.x) +
        (B.pos.y - A.pos.y) * (B.pos.y - A.pos.y) > (A.r + B.r) * (A.r + B.r) →
      resolveBallBallCollision f t A B = (A, B, [])) ∧
    (¬ (B.pos.x - A.pos.x) * (B.pos.x - A.pos.x) +
        (B.pos.y - A.pos.y) * (B.pos.y - A.pos.y) = 0 →
      0 < (B.pos.x - A.pos.x) * (B.pos.x - A.pos.x) +
        (B.pos.y - A.pos.y) * (B.pos.y - A.pos.y)) ∧
    (∀ g : ℤ → ℚ, (∀ n : ℤ, 0 < n → f n = g n) →
      resolveBallBallCollision f t A B = resolveBallBallCollision g t A B) := by
  have hnn : (0 : ℤ) ≤ (B.pos.x - A.pos.x) * (B.pos.x - A.pos.x) +
      (B.pos.y - A.pos.y) * (B.pos.y - A.pos.y) :=
    add_nonneg (mul_self_nonneg _) (mul_self_nonneg _)
  refine ⟨?_, ?_, ?_, ?_⟩
  · intro h
    simp [resolveBallBallCollision, ha, hb, h]
  · intro h
    have h0 : ¬ (B.pos.x - A.pos.x) * (B.pos.x - A.pos.x) +
        (B.pos.y - A.pos.y) * (B.pos.y - A.pos.y) = 0 :=
      ne_of_gt (lt_of_le_of_lt (mul_self_nonneg (A.r + B.r)) h)
    simp [resolveBallBallCollision, ha, hb, h0, h]
  · intro h
    exact lt_of_le_of_ne hnn (Ne.symm h)
  · intro g hg
    by_cases hz : (B.pos.x - A.pos.x) * (B.pos.x - A.pos.x) +
        (B.pos.y - A.pos.y) * (B.pos.y - A.pos.y) = 0
    · simp [resolveBallBallCollision, ha, hb, hz]
    · by_cases hgt : (B.pos.x - A.pos.x) * (B.pos.x - A.pos.x) +
          (B.pos.y - A.pos.y) * (B.pos.y - A.pos.y) > (A.r + B.r) * (A.r + B.r)
      · simp [resolveBallBallCollision, ha, hb, hz, hgt]
      · have hpos : 0 < (B.pos.x - A.pos.x) * (B.pos.x - A.pos.x) +
            (B.pos.y - A.pos.y) * (B.pos.y - A.pos.y) :=
          lt_of_le_of_ne hnn (Ne.symm hz)
        simp only [resolveBallBallCollision, ha, hb, Bool.not_true, Bool.or_self,
          Bool.false_eq_true, if_false, if_neg hz, if_neg hgt]
        rw [hg _ hpos]

/-- Witness for C8: two coincident combatants (same scaled position)
leave the collision resolver with no state change and no event. -/
theorem C8_collision_guards_witness :
    resolveBallBallCollision zeroInv 0 coincBallA coincBallB =
      (coincBallA, coincBallB, []) :=
  (C8_collision_guards zeroInv 0 coincBallA coincBallB (by decide) (by decide)).1
    (by decide)

/-- C2: a `stepSim` call on a running match (both combatants alive) whose
tick counter has reached the ceiling resolves the winner by the fixed
ladder (higher health, then higher cumulative damage dealt, then one draw
from the shared stream with A winning below 1/2), appends a `timeout`
event carrying that winner, and transitions to finished; the shared
stream advances exactly when the coin-flip case is reached. -/
theorem C2_timeout_ladder (COS SIN : Nat → ℤ) (approxInvSqrt : ℤ → ℚ)
    (s : SimState) (hdone : s.done = false) (ha : s.A.alive = true)
    (hb : s.B.alive = true) (ht : s.spec.sim.maxTicks ≤ s.tick) :
    ∃ w : Player,
      stepSim COS SIN approxInvSqrt s =
        { s with events := s.events ++ [Event.timeout s.tick w],
                 done := true, winner := some w,
                 rng := if s.A.hp = s.B.hp ∧ s.A.damageDealt = s.B.damageDealt
                        then (mulberry32Next s.rng).2 else s.rng } ∧
      (s.A.hp > s.B.hp → w = Player.A) ∧
      (s.B.hp > s.A.hp → w = Player.B) ∧
      (s.A.hp = s.B.hp → s.A.damageDealt > s.B.damageDealt → w = Player.A) ∧
      (s.A.hp = s.B.hp → s.B.damageDealt > s.A.damageDealt → w = Player.B) ∧
      (s.A.hp = s.B.hp → s.A.damageDealt = s.B.damageDealt →
        w = if (mulberry32Next s.rng).1 < 1 / 2 then Player.A else Player.B) := by
  rw [stepSim_timeout_eq COS SIN approxInvSqrt s hdone ha hb ht]
  by_cases h1 : s.A.hp = s.B.hp
  · by_cases h2 : s.A.damageDealt = s.B.damageDealt
    · refine ⟨if (mulberry32Next s.rng).1 < 1 / 2 then Player.A else Player.B,
        ?_, ?_, ?_, ?_, ?_, fun _ _ => rfl⟩
      · simp [timeoutStep, h1, h2]
      · intro h
        exact absurd h (by omega)
      · intro h
        exact absurd h (by omega)
      · intro _ h
        exact absurd h (by omega)
      · intro _ h
        exact absurd h (by omega)
    · refine ⟨if s.A.damageDealt > s.B.damageDealt then Player.A else Player.B,
        ?_, ?_, ?_, ?_, ?_, ?_⟩
      · simp [timeoutStep, h1, h2]
      · intro h
        exact absurd h (by omega)
      · intro h
        exact absurd h (by omega)
      · intro _ h
        simp [h]
      · intro _ h
        have hn : ¬ s.A.damageDealt > s.B.damageDealt := by omega
        simp [hn]
      · intro _ h
        exact absurd h h2
  · refine ⟨if s.A.hp > s.B.hp then Player.A else Player.B,
      ?_, ?_, ?_, ?_, ?_, ?_⟩
    · simp [timeoutStep, h1]
    · intro h
      simp [h]
    · intro h
      have hn : ¬ s.A.hp > s.B.hp := by omega
      simp [hn]
    · intro h
      exact absurd h h1
    · intro h
      exact absurd h h1
    · intro h
      exact absurd h h1

/-- Witness for C2 at the concrete state `timeoutState` (ceiling 0,
health 10 versus 5: ladder case (a) fires). -/
theorem C2_timeout_ladder_witness :
    timeoutState.done = false ∧ timeoutState.A.alive = true ∧
    timeoutState.B.alive = true ∧
    timeoutState.spec.sim.maxTicks ≤ timeoutState.tick ∧
    (stepSim zeroTable zeroTable zeroInv timeoutState).winner = some Player.A ∧
    (stepSim zeroTable zeroTable zeroInv timeoutState).events =
      timeoutState.events ++ [Event.timeout timeoutState.tick Player.A] := by
  obtain ⟨w, heq, hl1, -, -, -, -⟩ :=
    C2_timeout_ladder zeroTable zeroTable zeroInv timeoutState
      (by decide) (by decide) (by decide) (by decide)
  have hw : w = Player.A := hl1 (by decide)
  subst hw
  refine ⟨by decide, by decide, by decide, by decide, ?_, ?_⟩
  · rw [heq]
  · rw [heq]

/-- Pipeline steps 1 through 4 do not advance the tick counter. -/
theorem midTick_tick (f : ℤ → ℚ) (s : SimState) : (midTick f s).tick = s.tick := rfl

/-- Pipeline steps 1 through 4 do not change the scale factor. -/
theorem midTick_SCALE (f : ℤ → ℚ) (s : SimState) : (midTick f s).SCALE = s.SCALE := rfl

/-- Pipeline steps 1 through 4 do not draw from the shared random stream. -/
theorem midTick_rng (f : ℤ → ℚ) (s : SimState) : (midTick f s).rng = s.rng := rfl

/-- C3: if, on a running tick, the A-attacks-B weapon-hit check fires and
the damage drives B's health to zero or below, then within that same tick
B's alive flag is cleared and the `dead` event is appended immediately
after the `hit` event; the second (B-attacks-A) check then performs no
state change, and the same `stepSim` call leaves the match finished with
combatant A as winner and the tick advanced exactly once, a further
`stepSim` call being a no-op. -/
theorem C3_death_same_tick (COS SIN : Nat → ℤ) (approxInvSqrt : ℤ → ℚ)
    (s : SimState) (hdone : s.done = false) (ha : s.A.alive = true)
    (hb : s.B.alive = true) (ht : s.tick < s.spec.sim.maxTicks)
    (hhit : dist2 (weaponTipScaled COS SIN (midTick approxInvSqrt s).A)
        (midTick approxInvSqrt s).B.pos ≤
        ((midTick approxInvSqrt s).A.tipR + (midTick approxInvSqrt s).B.r) *
        ((midTick approxInvSqrt s).A.tipR + (midTick approxInvSqrt s).B.r))
    (hkill : (midTick approxInvSqrt s).B.hp -
        (s.A.baseDamage + s.A.ramp * (s.A.hitCount : ℤ)) ≤ 0) :
    ∃ (a1 b1 : BallState) (rng1 : Nat),
      checkHit COS SIN s.tick s.SCALE (midTick approxInvSqrt s).A
          (midTick approxInvSqrt s).B (midTick approxInvSqrt s).rng =
        (a1, b1,
         [Event.hit s.tick s.A.id s.B.id
            (s.A.baseDamage + s.A.ramp * (s.A.hitCount : ℤ)),
          Event.dead s.tick s.B.id], rng1) ∧
      a1.alive = true ∧ b1.alive = false ∧
      checkHit COS SIN s.tick s.SCALE b1 a1 rng1 = (b1, a1, [], rng1) ∧
      (stepSim COS SIN approxInvSqrt s).events =
        (midTick approxInvSqrt s).events ++
          [Event.hit s.tick s.A.id s.B.id
             (s.A.baseDamage + s.A.ramp * (s.A.hitCount : ℤ)),
           Event.dead s.tick s.B.id] ∧
      (stepSim COS SIN approxInvSqrt s).done = true ∧
      (stepSim COS SIN approxInvSqrt s).winner = some Player.A ∧
      (stepSim COS SIN approxInvSqrt s).tick = s.tick + 1 ∧
      stepSim COS SIN approxInvSqrt (stepSim COS SIN approxInvSqrt s) =
        stepSim COS SIN approxInvSqrt s := by
  obtain ⟨hid, hhp, hr, htip, hwr, hbd, hrmp, hhc, halv, hdd, hres⟩ :=
    midTick_stats_A approxInvSqrt s
  obtain ⟨hidB, hhpB, hrB, htipB, hwrB, hbdB, hrmpB, hhcB, halvB, hddB, hresB⟩ :=
    midTick_stats_B approxInvSqrt s
  have hAalive : (midTick approxInvSqrt s).A.alive = true := halv.trans ha
  have hBalive : (midTick approxInvSqrt s).B.alive = true := halvB.trans hb
  have hfirst0 := checkHit_hit COS SIN s.tick s.SCALE (midTick approxInvSqrt s).A
    (midTick approxInvSqrt s).B (midTick approxInvSqrt s).rng hAalive hBalive hhit
  have hdmg : (midTick approxInvSqrt s).A.baseDamage +
      (midTick approxInvSqrt s).A.ramp * ((midTick approxInvSqrt s).A.hitCount : ℤ) =
      s.A.baseDamage + s.A.ramp * (s.A.hitCount : ℤ) := by
    rw [hbd, hrmp, hhc]
  rw [hdmg, hid, hidB, if_pos hkill, if_pos hkill] at hfirst0
  obtain ⟨a1, b1, l1, rng1, hfirst, hA1, hB1, hl⟩ :
      ∃ a1 b1 l1 rng1,
        checkHit COS SIN s.tick s.SCALE (midTick approxInvSqrt s).A
            (midTick approxInvSqrt s).B (midTick approxInvSqrt s).rng =
          (a1, b1, l1, rng1) ∧
        a1.alive = true ∧ b1.alive = false ∧
        l1 = [Event.hit s.tick s.A.id s.B.id
                (s.A.baseDamage + s.A.ramp * (s.A.hitCount : ℤ)),
              Event.dead s.tick s.B.id] := by
    exact ⟨_, _, _, _, hfirst0, hAalive, rfl, rfl⟩
  subst hl
  have hsecond := checkHit_not_alive COS SIN s.tick s.SCALE b1 a1 rng1 (Or.inl hB1)
  have hstep : stepSim COS SIN approxInvSqrt s = physicsStep COS SIN approxInvSqrt s :=
    stepSim_phys_eq COS SIN approxInvSqrt s hdone ha hb ht
  have hkey : physicsStep COS SIN approxInvSqrt s =
      { midTick approxInvSqrt s with
        A := a1, B := b1,
        events := (midTick approxInvSqrt s).events ++
          [Event.hit s.tick s.A.id s.B.id
             (s.A.baseDamage + s.A.ramp * (s.A.hitCount : ℤ)),
           Event.dead s.tick s.B.id],
        rng := rng1, tick := s.tick + 1, done := true,
        winner := some Player.A } := by
    simp only [physicsStep, midTick_tick, midTick_SCALE, hfirst]
    simp only [hsecond]
    simp [hA1, hB1]
  refine ⟨a1, b1, rng1, hfirst, hA1, hB1, hsecond, ?_, ?_, ?_, ?_, ?_⟩
  · rw [hstep, hkey]
  · rw [hstep, hkey]
  · rw [hstep, hkey]
  · rw [hstep, hkey]
  · rw [hstep, hkey]
    exact stepSim_of_done COS SIN approxInvSqrt _ rfl

/-- Witness for C3 at the concrete state `killState` (B at health 3, base
damage 5, zero-reach weapon with large tip radius: A's first check kills B
at tick 0). -/
theorem C3_death_same_tick_witness :
    killState.done = false ∧ killState.tick < killState.spec.sim.maxTicks ∧
    (stepSim zeroTable zeroTable zeroInv killState).events =
      (midTick zeroInv killState).events ++
        [Event.hit 0 Player.A Player.B 5, Event.dead 0 Player.B] ∧
    (stepSim zeroTable zeroTable zeroInv killState).done = true ∧
    (stepSim zeroTable zeroTable zeroInv killState).winner = some Player.A ∧
    (stepSim zeroTable zeroTable zeroInv killState).tick = killState.tick + 1 := by
  obtain ⟨a1, b1, rng1, h1, h2, h3, h4, hev, hdone2, hwin, htick2, hnoop⟩ :=
    C3_death_same_tick zeroTable zeroTable zeroInv killState (by decide) (by decide)
      (by decide) (by decide) (by decide) (by decide)
  exact ⟨by decide, by decide, by decide, hdone2, hwin, htick2⟩

/-- Helper: a failed dead-combatant guard means both combatants are alive. -/
theorem guard_both_alive {a b : Bool} (h : ¬ ((!a) || !b) = true) :
    a = true ∧ b = true := by
  cases a <;> cases b <;> simp_all

/-- Helper: the physics branch decomposed into its two hit checks: there
are intermediate results of the A-attacks-B and B-attacks-A checks such
that the branch result is the assembled record (events appended in order,
tick incremented, finished exactly when a combatant died this tick). -/
theorem physicsStep_decompose (COS SIN : Nat → ℤ) (f : ℤ → ℚ) (s : SimState) :
    ∃ (a1 b1 : BallState) (l1 : List Event) (rng1 : Nat)
      (b2 a2 : BallState) (l2 : List Event) (rng2 : Nat),
      checkHit COS SIN s.tick s.SCALE (midTick f s).A (midTick f s).B
          (midTick f s).rng = (a1, b1, l1, rng1) ∧
      checkHit COS SIN s.tick s.SCALE b1 a1 rng1 = (b2, a2, l2, rng2) ∧
      physicsStep COS SIN f s =
        { midTick f s with
          A := a2, B := b2,
          events := (midTick f s).events ++ l1 ++ l2, rng := rng2,
          tick := s.tick + 1,
          done := if (!a2.alive || !b2.alive) = true then true
                  else (midTick f s).done,
          winner := if (!a2.alive || !b2.alive) = true then
                      some (if a2.alive then Player.A else Player.B)
                    else (midTick f s).winner } := by
  refine ⟨(checkHit COS SIN s.tick s.SCALE (midTick f s).A (midTick f s).B
      (midTick f s).rng).1,
    (checkHit COS SIN s.tick s.SCALE (midTick f s).A (midTick f s).B
      (midTick f s).rng).2.1,
    (checkHit COS SIN s.tick s.SCALE (midTick f s).A (midTick f s).B
      (midTick f s).rng).2.2.1,
    (checkHit COS SIN s.tick s.SCALE (midTick f s).A (midTick f s).B
      (midTick f s).rng).2.2.2,
    (checkHit COS SIN s.tick s.SCALE
      (checkHit COS SIN s.tick s.SCALE (midTick f s).A (midTick f s).B
        (midTick f s).rng).2.1
      (checkHit COS SIN s.tick s.SCALE (midTick f s).A (midTick f s).B
        (midTick f s).rng).1
      (checkHit COS SIN s.tick s.SCALE (midTick f s).A (midTick f s).B
        (midTick f s).rng).2.2.2).1,
    (checkHit COS SIN s.tick s.SCALE
      (checkHit COS SIN s.tick s.SCALE (midTick f s).A (midTick f s).B
        (midTick f s).rng).2.1
      (checkHit COS SIN s.tick s.SCALE (midTick f s).A (midTick f s).B
        (midTick f s).rng).1
      (checkHit COS SIN s.tick s.SCALE (midTick f s).A (midTick f s).B
        (midTick f s).rng).2.2.2).2.1,
    (checkHit COS SIN s.tick s.SCALE
      (checkHit COS SIN s.tick s.SCALE (midTick f s).A (midTick f s).B
        (midTick f s).rng).2.1
      (checkHit COS SIN s.tick s.SCALE (midTick f s).A (midTick f s).B
        (midTick f s).rng).1
      (checkHit COS SIN s.tick s.SCALE (midTick f s).A (midTick f s).B
        (midTick f s).rng).2.2.2).2.2.1,
    (checkHit COS SIN s.tick s.SCALE
      (checkHit COS SIN s.tick s.SCALE (midTick f s).A (midTick f s).B
        (midTick f s).rng).2.1
      (checkHit COS SIN s.tick s.SCALE (midTick f s).A (midTick f s).B
        (midTick f s).rng).1
      (checkHit COS SIN s.tick s.SCALE (midTick f s).A (midTick f s).B
        (midTick f s).rng).2.2.2).2.2.2,
    rfl, rfl, ?_⟩
  simp only [physicsStep, midTick_tick, midTick_SCALE]
  dsimp only
  split_ifs with hc <;> rfl

/-- Helper: a fired dead-combatant condition names a dead combatant. -/
theorem guard_dead {a b : Bool} (h : ((!a) || !b) = true) :
    a = false ∨ b = false := by
  cases a <;> cases b <;> simp_all

/-- Pipeline steps 1 through 4 do not change the finished flag. -/
theorem midTick_done (f : ℤ → ℚ) (s : SimState) : (midTick f s).done = s.done := rfl

/-- C10: `createSim` sets both alive flags to true whatever the starting
health (even non-positive); an alive flag can only turn false during a
`stepSim` call through weapon-hit detection, leaving that combatant with
health `≤ 0` and the `hit`/`dead` event pair appended; and a running state
with both combatants alive and the tick counter below the ceiling finishes
only when this tick's hit detection killed a combatant, so a match whose
combatant merely starts at non-positive health keeps simulating. -/
theorem C10_alive_lifecycle :
    (∀ (spec : MatchSpec) (s : SimState), createSim spec = some s →
      s.A.alive = true ∧ s.B.alive = true) ∧
    (∀ (COS SIN : Nat → ℤ) (approxInvSqrt : ℤ → ℚ) (s : SimState),
      s.A.alive = true →
      (stepSim COS SIN approxInvSqrt s).A.alive = false →
      (stepSim COS SIN approxInvSqrt s).A.hp ≤ 0 ∧
      ∃ (pre : List Event) (dmg : ℤ),
        (stepSim COS SIN approxInvSqrt s).events =
          pre ++ [Event.hit s.tick s.B.id s.A.id dmg, Event.dead s.tick s.A.id]) ∧
    (∀ (COS SIN : Nat → ℤ) (approxInvSqrt : ℤ → ℚ) (s : SimState),
      s.B.alive = true →
      (stepSim COS SIN approxInvSqrt s).B.alive = false →
      (stepSim COS SIN approxInvSqrt s).B.hp ≤ 0 ∧
      ∃ (pre : List Event) (dmg : ℤ),
        (stepSim COS SIN approxInvSqrt s).events =
          pre ++ [Event.hit s.tick s.A.id s.B.id dmg, Event.dead s.tick s.B.id]) ∧
    (∀ (COS SIN : Nat → ℤ) (approxInvSqrt : ℤ → ℚ) (s : SimState),
      s.done = false → s.A.alive = true → s.B.alive = true →
      s.tick < s.spec.sim.maxTicks →
      (stepSim COS SIN approxInvSqrt s).done = true →
      (stepSim COS SIN approxInvSqrt s).A.alive = false ∨
      (stepSim COS SIN approxInvSqrt s).B.alive = false) := by
  refine ⟨?_, ?_, ?_, ?_⟩
  · intro spec s h
    obtain ⟨-, -, -, -, -, hA, hB, -⟩ := createSim_fields spec s h
    exact ⟨hA, hB⟩
  · intro C S f s hA hflip
    by_cases hdone : s.done = true
    · rw [stepSim_of_done C S f s hdone] at hflip
      rw [hA] at hflip
      exact absurd hflip (by decide)
    · have hdf : s.done = false := Bool.eq_false_iff.mpr hdone
      by_cases hguard : ((!s.A.alive) || !s.B.alive) = true
      · rw [stepSim_guard C S f s hdf (guard_dead hguard)] at hflip
        simp [hA] at hflip
      · have hboth := guard_both_alive hguard
        by_cases hceil : s.spec.sim.maxTicks ≤ s.tick
        · rw [stepSim_timeout_eq C S f s hdf hboth.1 hboth.2 hceil] at hflip
          simp [timeoutStep, hA] at hflip
        · have hlt : s.tick < s.spec.sim.maxTicks := Nat.not_le.mp hceil
          rw [stepSim_phys_eq C S f s hdf hboth.1 hboth.2 hlt] at hflip ⊢
          obtain ⟨a1, b1, l1, rng1, b2, a2, l2, rng2, hc1, hc2, hps⟩ :=
            physicsStep_decompose C S f s
          rw [hps] at hflip ⊢
          dsimp only at hflip ⊢
          have hatt1 := checkHit_att_fields C S s.tick s.SCALE (midTick f s).A
            (midTick f s).B (midTick f s).rng
          simp only [hc1] at hatt1
          obtain ⟨ha1hp, ha1alive, ha1id, -, -⟩ := hatt1
          have hvic1 := checkHit_vic_fields C S s.tick s.SCALE (midTick f s).A
            (midTick f s).B (midTick f s).rng
          simp only [hc1] at hvic1
          obtain ⟨hb1id, -, -, -, -⟩ := hvic1
          obtain ⟨hmidA, -, -, -, -, -, -, -, hmalvA, -, -⟩ := midTick_stats_A f s
          obtain ⟨hmidB, -, -, -, -, -, -, -, hmalvB, -, -⟩ := midTick_stats_B f s
          have ha1 : a1.alive = true := by rw [ha1alive, hmalvA, hboth.1]
          by_cases hb1 : b1.alive = false
          · have h2u := checkHit_not_alive C S s.tick s.SCALE b1 a1 rng1 (Or.inl hb1)
            rw [hc2] at h2u
            simp only [Prod.mk.injEq] at h2u
            obtain ⟨-, ha2, -, -⟩ := h2u
            rw [ha2, ha1] at hflip
            exact absurd hflip (by decide)
          · have hb1' : b1.alive = true := by
              cases hx : b1.alive <;> simp_all
            by_cases hd : dist2 (weaponTipScaled C S b1) a1.pos ≤
                (b1.tipR + a1.r) * (b1.tipR + a1.r)
            · have hh := checkHit_hit C S s.tick s.SCALE b1 a1 rng1 hb1' ha1 hd
              rw [hc2] at hh
              simp only [Prod.mk.injEq] at hh
              obtain ⟨hb2, ha2, hl2, hrng2⟩ := hh
              subst hb2
              subst ha2
              subst hl2
              subst hrng2
              dsimp only at hflip
              by_cases hk : a1.hp - (b1.baseDamage + b1.ramp * (b1.hitCount : ℤ)) ≤ 0
              · constructor
                · exact hk
                · refine ⟨(midTick f s).events ++ l1,
                    b1.baseDamage + b1.ramp * (b1.hitCount : ℤ), ?_⟩
                  rw [if_pos hk]
                  rw [hb1id, hmidB, ha1id, hmidA]
              · rw [if_neg hk, ha1] at hflip
                exact absurd hflip (by decide)
            · have h2u := checkHit_miss C S s.tick s.SCALE b1 a1 rng1 hd
              rw [hc2] at h2u
              simp only [Prod.mk.injEq] at h2u
              obtain ⟨-, ha2, -, -⟩ := h2u
              rw [ha2, ha1] at hflip
              exact absurd hflip (by decide)
  · intro C S f s hB hflip
    by_cases hdone : s.done = true
    · rw [stepSim_of_done C S f s hdone] at hflip
      rw [hB] at hflip
      exact absurd hflip (by decide)
    · have hdf : s.done = false := Bool.eq_false_iff.mpr hdone
      by_cases hguard : ((!s.A.alive) || !s.B.alive) = true
      · rw [stepSim_guard C S f s hdf (guard_dead hguard)] at hflip
        simp [hB] at hflip
      · have hboth := guard_both_alive hguard
        by_cases hceil : s.spec.sim.maxTicks ≤ s.tick
        · rw [stepSim_timeout_eq C S f s hdf hboth.1 hboth.2 hceil] at hflip
          simp [timeoutStep, hB] at hflip
        · have hlt : s.tick < s.spec.sim.maxTicks := Nat.not_le.mp hceil
          rw [stepSim_phys_eq C S f s hdf hboth.1 hboth.2 hlt] at hflip ⊢
          obtain ⟨a1, b1, l1, rng1, b2, a2, l2, rng2, hc1, hc2, hps⟩ :=
            physicsStep_decompose C S f s
          rw [hps] at hflip ⊢
          dsimp only at hflip ⊢
          have hatt2 := checkHit_att_fields C S s.tick s.SCALE b1 a1 rng1
          simp only [hc2] at hatt2
          obtain ⟨hb2hp, hb2alive, -, -, -⟩ := hatt2
          obtain ⟨hmidA, -, -, -, -, -, -, -, hmalvA, -, -⟩ := midTick_stats_A f s
          obtain ⟨hmidB, -, -, -, -, -, -, -, hmalvB, -, -⟩ := midTick_stats_B f s
          have hmBalive : (midTick f s).B.alive = true := hmalvB.trans hB
          have hmAalive : (midTick f s).A.alive = true := hmalvA.trans hboth.1
          have hb1flip : b1.alive = false := by rw [← hb2alive]; exact hflip
          by_cases hd : dist2 (weaponTipScaled C S (midTick f s).A)
              (midTick f s).B.pos ≤
              ((midTick f s).A.tipR + (midTick f s).B.r) *
              ((midTick f s).A.tipR + (midTick f s).B.r)
          · have hh := checkHit_hit C S s.tick s.SCALE (midTick f s).A
              (midTick f s).B (midTick f s).rng hmAalive hmBalive hd
            rw [hc1] at hh
            simp only [Prod.mk.injEq] at hh
            obtain ⟨ha1, hb1, hl1, hrng1⟩ := hh
            have hbx := hb1flip
            rw [hb1] at hbx
            dsimp only at hbx
            by_cases hk : (midTick f s).B.hp -
                ((midTick f s).A.baseDamage +
                  (midTick f s).A.ramp * ((midTick f s).A.hitCount : ℤ)) ≤ 0
            · have h2u := checkHit_not_alive C S s.tick s.SCALE b1 a1 rng1
                (Or.inl hb1flip)
              rw [hc2] at h2u
              simp only [Prod.mk.injEq] at h2u
              obtain ⟨hb2e, -, hl2, -⟩ := h2u
              constructor
              · rw [hb2hp, hb1]
                exact hk
              · refine ⟨(midTick f s).events,
                  (midTick f s).A.baseDamage +
                    (midTick f s).A.ramp * ((midTick f s).A.hitCount : ℤ), ?_⟩
                rw [hl2, hl1, if_pos hk]
                rw [hmidA, hmidB]
                simp
            · rw [if_neg hk, hmBalive] at hbx
              exact absurd hbx (by decide)
          · have h2u := checkHit_miss C S s.tick s.SCALE (midTick f s).A
              (midTick f s).B (midTick f s).rng hd
            rw [hc1] at h2u
            simp only [Prod.mk.injEq] at h2u
            obtain ⟨-, hb1, -, -⟩ := h2u
            rw [hb1, hmalvB, hB] at hb1flip
            exact absurd hb1flip (by decide)
  · intro C S f s hdf hA hB hlt hdone2
    rw [stepSim_phys_eq C S f s hdf hA hB hlt] at hdone2 ⊢
    obtain ⟨a1, b1, l1, rng1, b2, a2, l2, rng2, hc1, hc2, hps⟩ :=
      physicsStep_decompose C S f s
    rw [hps] at hdone2 ⊢
    dsimp only at hdone2 ⊢
    by_cases hcond : ((!a2.alive) || !b2.alive) = true
    · rcases guard_dead hcond with h | h
      · exact Or.inl h
      · exact Or.inr h
    · rw [if_neg hcond, midTick_done, hdf] at hdone2
      exact absurd hdone2 (by decide)

/-- Witness for C10: a description whose combatant B starts at health -7
still yields both alive flags true, and on the concrete killing-hit state
the finish of the tick names a dead combatant. -/
theorem C10_alive_lifecycle_witness :
    ((createSim (mkSpec 10 (-7) 5 5)).getD default).A.alive = true ∧
    ((createSim (mkSpec 10 (-7) 5 5)).getD default).B.alive = true ∧
    ((stepSim zeroTable zeroTable zeroInv killState).A.alive = false ∨
     (stepSim zeroTable zeroTable zeroInv killState).B.alive = false) := by
  have h1 := C10_alive_lifecycle.1 (mkSpec 10 (-7) 5 5)
    ((createSim (mkSpec 10 (-7) 5 5)).getD default) (by rfl)
  have h4 := C10_alive_lifecycle.2.2.2 zeroTable zeroTable zeroInv killState
    (by decide) (by decide) (by decide) (by decide) (by decide)
  exact ⟨h1.1, h1.2, h4⟩

/-- Helper: across one `stepSim` call, combatant B's health is unchanged
unless the A-attacks-B hit check landed, in which case it drops by exactly
`baseDamage + ramp * hitCount` of A (A's pre-tick count, whose increment
is also recorded) and the corresponding `hit` event is in the log. -/
theorem stepSim_B_accounting (C S : Nat → ℤ) (f : ℤ → ℚ) (s : SimState) :
    (stepSim C S f s).B.hp = s.B.hp ∨
    ((stepSim C S f s).B.hp =
        s.B.hp - (s.A.baseDamage + s.A.ramp * (s.A.hitCount : ℤ)) ∧
      (stepSim C S f s).A.hitCount = s.A.hitCount + 1 ∧
      ∃ pre post, (stepSim C S f s).events =
        pre ++ [Event.hit s.tick s.A.id s.B.id
          (s.A.baseDamage + s.A.ramp * (s.A.hitCount : ℤ))] ++ post) := by
  by_cases hdone : s.done = true
  · rw [stepSim_of_done C S f s hdone]
    exact Or.inl rfl
  · have hdf : s.done = false := Bool.eq_false_iff.mpr hdone
    by_cases hguard : ((!s.A.alive) || !s.B.alive) = true
    · rw [stepSim_guard C S f s hdf (guard_dead hguard)]
      exact Or.inl rfl
    · have hboth := guard_both_alive hguard
      by_cases hceil : s.spec.sim.maxTicks ≤ s.tick
      · rw [stepSim_timeout_eq C S f s hdf hboth.1 hboth.2 hceil]
        exact Or.inl rfl
      · have hlt : s.tick < s.spec.sim.maxTicks := Nat.not_le.mp hceil
        rw [stepSim_phys_eq C S f s hdf hboth.1 hboth.2 hlt]
        obtain ⟨a1, b1, l1, rng1, b2, a2, l2, rng2, hc1, hc2, hps⟩ :=
          physicsStep_decompose C S f s
        rw [hps]
        dsimp only
        have hatt2 := checkHit_att_fields C S s.tick s.SCALE b1 a1 rng1
        simp only [hc2] at hatt2
        obtain ⟨hb2hp, -, -, -, -⟩ := hatt2
        have hvic2 := checkHit_vic_fields C S s.tick s.SCALE b1 a1 rng1
        simp only [hc2] at hvic2
        obtain ⟨-, ha2hc, -, -, -⟩ := hvic2
        have hatt1 := checkHit_att_fields C S s.tick s.SCALE (midTick f s).A
          (midTick f s).B (midTick f s).rng
        simp only [hc1] at hatt1
        obtain ⟨-, -, -, -, -⟩ := hatt1
        obtain ⟨hmidA, -, -, -, -, hmbdA, hmrmpA, hmhcA, hmalvA, -, -⟩ :=
          midTick_stats_A f s
        obtain ⟨hmidB, hmhpB, -, -, -, -, -, -, hmalvB, -, -⟩ :=
          midTick_stats_B f s
        have hmAalive : (midTick f s).A.alive = true := hmalvA.trans hboth.1
        have hmBalive : (midTick f s).B.alive = true := hmalvB.trans hboth.2
        by_cases hd : dist2 (weaponTipScaled C S (midTick f s).A)
            (midTick f s).B.pos ≤
            ((midTick f s).A.tipR + (midTick f s).B.r) *
            ((midTick f s).A.tipR + (midTick f s).B.r)
        · have hh := checkHit_hit C S s.tick s.SCALE (midTick f s).A
            (midTick f s).B (midTick f s).rng hmAalive hmBalive hd
          rw [hc1] at hh
          simp only [Prod.mk.injEq] at hh
          obtain ⟨ha1, hb1, hl1, -⟩ := hh
          right
          subst hl1
          refine ⟨?_, ?_, ?_⟩
          · rw [hb2hp, hb1]
            dsimp only
            rw [hmhpB, hmbdA, hmrmpA, hmhcA]
          · rw [ha2hc, ha1]
            dsimp only
            rw [hmhcA]
          · rw [hmidA, hmidB, hmbdA, hmrmpA, hmhcA, hmhpB]
            refine ⟨(midTick f s).events,
              (if s.B.hp - (s.A.baseDamage + s.A.ramp * (s.A.hitCount : ℤ)) ≤ 0
               then [Event.dead s.tick s.B.id] else []) ++ l2, ?_⟩
            simp [List.append_assoc]
        · have h1u := checkHit_miss C S s.tick s.SCALE (midTick f s).A
            (midTick f s).B (midTick f s).rng hd
          rw [hc1] at h1u
          simp only [Prod.mk.injEq] at h1u
          obtain ⟨-, hb1, -, -⟩ := h1u
          left
          rw [hb2hp, hb1, hmhpB]

/-- Helper: across one `stepSim` call, combatant A's health is unchanged
unless the B-attacks-A hit check landed, in which case it drops by exactly
`baseDamage + ramp * hitCount` of B (B's pre-tick count, whose increment
is also recorded) and the corresponding `hit` event is in the log. -/
theorem stepSim_A_accounting (C S : Nat → ℤ) (f : ℤ → ℚ) (s : SimState) :
    (stepSim C S f s).A.hp = s.A.hp ∨
    ((stepSim C S f s).A.hp =
        s.A.hp - (s.B.baseDamage + s.B.ramp * (s.B.hitCount : ℤ)) ∧
      (stepSim C S f s).B.hitCount = s.B.hitCount + 1 ∧
      ∃ pre post, (stepSim C S f s).events =
        pre ++ [Event.hit s.tick s.B.id s.A.id
          (s.B.baseDamage + s.B.ramp * (s.B.hitCount : ℤ))] ++ post) := by
  by_cases hdone : s.done = true
  · rw [stepSim_of_done C S f s hdone]
    exact Or.inl rfl
  · have hdf : s.done = false := Bool.eq_false_iff.mpr hdone
    by_cases hguard : ((!s.A.alive) || !s.B.alive) = true
    · rw [stepSim_guard C S f s hdf (guard_dead hguard)]
      exact Or.inl rfl
    · have hboth := guard_both_alive hguard
      by_cases hceil : s.spec.sim.maxTicks ≤ s.tick
      · rw [stepSim_timeout_eq C S f s hdf hboth.1 hboth.2 hceil]
        exact Or.inl rfl
      · have hlt : s.tick < s.spec.sim.maxTicks := Nat.not_le.mp hceil
        rw [stepSim_phys_eq C S f s hdf hboth.1 hboth.2 hlt]
        obtain ⟨a1, b1, l1, rng1, b2, a2, l2, rng2, hc1, hc2, hps⟩ :=
          physicsStep_decompose C S f s
        rw [hps]
        dsimp only
        have hatt1 := checkHit_att_fields C S s.tick s.SCALE (midTick f s).A
          (midTick f s).B (midTick f s).rng
        simp only [hc1] at hatt1
        obtain ⟨ha1hp, ha1alive, ha1id, -, -⟩ := hatt1
        have hvic1 := checkHit_vic_fields C S s.tick s.SCALE (midTick f s).A
          (midTick f s).B (midTick f s).rng
        simp only [hc1] at hvic1
        obtain ⟨hb1id, hb1hc, -, hb1bd, hb1rmp⟩ := hvic1
        obtain ⟨hmidA, hmhpA, -, -, -, -, -, -, hmalvA, -, -⟩ :=
          midTick_stats_A f s
        obtain ⟨hmidB, -, -, -, -, hmbdB, hmrmpB, hmhcB, hmalvB, -, -⟩ :=
          midTick_stats_B f s
        have ha1alive' : a1.alive = true := by
          rw [ha1alive, hmalvA, hboth.1]
        by_cases hb1 : b1.alive = false
        · have h2u := checkHit_not_alive C S s.tick s.SCALE b1 a1 rng1 (Or.inl hb1)
          rw [hc2] at h2u
          simp only [Prod.mk.injEq] at h2u
          obtain ⟨-, ha2, -, -⟩ := h2u
          left
          rw [ha2, ha1hp, hmhpA]
        · have hb1' : b1.alive = true := by
            cases hx : b1.alive <;> simp_all
          by_cases hd : dist2 (weaponTipScaled C S b1) a1.pos ≤
              (b1.tipR + a1.r) * (b1.tipR + a1.r)
          · have hh := checkHit_hit C S s.tick s.SCALE b1 a1 rng1 hb1' ha1alive' hd
            rw [hc2] at hh
            simp only [Prod.mk.injEq] at hh
            obtain ⟨hb2, ha2, hl2, -⟩ := hh
            right
            subst hl2
            refine ⟨?_, ?_, ?_⟩
            · rw [ha2]
              dsimp only
              rw [ha1hp, hmhpA, hb1bd, hb1rmp, hb1hc, hmbdB, hmrmpB, hmhcB]
            · rw [hb2]
              dsimp only
              rw [hb1hc, hmhcB]
            · rw [hb1id, hmidB, ha1id, hmidA, hb1bd, hmbdB, hb1rmp, hmrmpB,
                hb1hc, hmhcB, ha1hp, hmhpA]
              refine ⟨(midTick f s).events ++ l1,
                if s.A.hp - (s.B.baseDamage + s.B.ramp * (s.B.hitCount : ℤ)) ≤ 0
                then [Event.dead s.tick s.A.id] else [], ?_⟩
              simp [List.append_assoc]
          · have h2u := checkHit_miss C S s.tick s.SCALE b1 a1 rng1 hd
            rw [hc2] at h2u
            simp only [Prod.mk.injEq] at h2u
            obtain ⟨-, ha2, -, -⟩ := h2u
            left
            rw [ha2, ha1hp, hmhpA]

/-- Helper: `stepSim` never changes either combatant's damage parameters. -/
theorem stepSim_params (C S : Nat → ℤ) (f : ℤ → ℚ) (s : SimState) :
    (stepSim C S f s).A.baseDamage = s.A.baseDamage ∧
    (stepSim C S f s).A.ramp = s.A.ramp ∧
    (stepSim C S f s).B.baseDamage = s.B.baseDamage ∧
    (stepSim C S f s).B.ramp = s.B.ramp := by
  by_cases hdone : s.done = true
  · rw [stepSim_of_done C S f s hdone]
    exact ⟨rfl, rfl, rfl, rfl⟩
  · have hdf : s.done = false := Bool.eq_false_iff.mpr hdone
    by_cases hguard : ((!s.A.alive) || !s.B.alive) = true
    · rw [stepSim_guard C S f s hdf (guard_dead hguard)]
      exact ⟨rfl, rfl, rfl, rfl⟩
    · have hboth := guard_both_alive hguard
      by_cases hceil : s.spec.sim.maxTicks ≤ s.tick
      · rw [stepSim_timeout_eq C S f s hdf hboth.1 hboth.2 hceil]
        exact ⟨rfl, rfl, rfl, rfl⟩
      · have hlt : s.tick < s.spec.sim.maxTicks := Nat.not_le.mp hceil
        rw [stepSim_phys_eq C S f s hdf hboth.1 hboth.2 hlt]
        obtain ⟨a1, b1, l1, rng1, b2, a2, l2, rng2, hc1, hc2, hps⟩ :=
          physicsStep_decompose C S f s
        rw [hps]
        dsimp only
        have hatt1 := checkHit_att_fields C S s.tick s.SCALE (midTick f s).A
          (midTick f s).B (midTick f s).rng
        simp only [hc1] at hatt1
        obtain ⟨-, -, -, ha1bd, ha1rmp⟩ := hatt1
        have hvic1 := checkHit_vic_fields C S s.tick s.SCALE (midTick f s).A
          (midTick f s).B (midTick f s).rng
        simp only [hc1] at hvic1
        obtain ⟨-, -, -, hb1bd, hb1rmp⟩ := hvic1
        have hatt2 := checkHit_att_fields C S s.tick s.SCALE b1 a1 rng1
        simp only [hc2] at hatt2
        obtain ⟨-, -, -, hb2bd, hb2rmp⟩ := hatt2
        have hvic2 := checkHit_vic_fields C S s.tick s.SCALE b1 a1 rng1
        simp only [hc2] at hvic2
        obtain ⟨-, -, -, ha2bd, ha2rmp⟩ := hvic2
        obtain ⟨-, -, -, -, -, hmbdA, hmrmpA, -, -, -, -⟩ := midTick_stats_A f s
        obtain ⟨-, -, -, -, -, hmbdB, hmrmpB, -, -, -, -⟩ := midTick_stats_B f s
        exact ⟨by rw [ha2bd, ha1bd, hmbdA], by rw [ha2rmp, ha1rmp, hmrmpA],
          by rw [hb2bd, hb1bd, hmbdB], by rw [hb2rmp, hb1rmp, hmrmpB]⟩

/-- Helper: the damage parameters are constant along any run. -/
theorem iterate_params (C S : Nat → ℤ) (f : ℤ → ℚ) (s : SimState) (n : Nat) :
    ((stepSim C S f)^[n] s).A.baseDamage = s.A.baseDamage ∧
    ((stepSim C S f)^[n] s).A.ramp = s.A.ramp ∧
    ((stepSim C S f)^[n] s).B.baseDamage = s.B.baseDamage ∧
    ((stepSim C S f)^[n] s).B.ramp = s.B.ramp := by
  induction n with
  | zero => exact ⟨rfl, rfl, rfl, rfl⟩
  | succ n ih =>
    obtain ⟨i1, i2, i3, i4⟩ := ih
    obtain ⟨p1, p2, p3, p4⟩ := stepSim_params C S f ((stepSim C S f)^[n] s)
    rw [Function.iterate_succ_apply']
    exact ⟨p1.trans i1, p2.trans i2, p3.trans i3, p4.trans i4⟩

/-- Counterexample for C6 as stated: a run of a description whose weapon
has negative base damage (allowed by the data model) increases the
victim's health at the first hit, so health is not non-increasing for
every run. -/
theorem C6_health_counterexample :
    createSim negSpec = some negState ∧
    negState.B.hp = 3 ∧
    (stepSim zeroTable zeroTable zeroInv negState).B.hp = 8 ∧
    ¬ (stepSim zeroTable zeroTable zeroInv negState).B.hp ≤ negState.B.hp :=
  ⟨by rfl, by decide, by decide, by decide⟩

/-- C6 amended: provided both weapons' base damage and ramp are
non-negative, each combatant's health is non-increasing along the run;
and unconditionally health changes only at the moment a `hit` event is
appended, by exactly `baseDamage + ramp * (hitCount - 1)` where `hitCount`
is the attacker's cumulative count at that specific hit (equivalently
`baseDamage + ramp * preHitCount` with the attacker's count incremented by
one); no other pipeline step modifies health. -/
theorem C6_health_monotone_accounting (COS SIN : Nat → ℤ)
    (approxInvSqrt : ℤ → ℚ) (s : SimState)
    (hbdA : 0 ≤ s.A.baseDamage) (hrmpA : 0 ≤ s.A.ramp)
    (hbdB : 0 ≤ s.B.baseDamage) (hrmpB : 0 ≤ s.B.ramp) :
    (∀ n : Nat,
      ((stepSim COS SIN approxInvSqrt)^[n + 1] s).A.hp ≤
        ((stepSim COS SIN approxInvSqrt)^[n] s).A.hp ∧
      ((stepSim COS SIN approxInvSqrt)^[n + 1] s).B.hp ≤
        ((stepSim COS SIN approxInvSqrt)^[n] s).B.hp) ∧
    ((stepSim COS SIN approxInvSqrt s).B.hp ≠ s.B.hp →
      (stepSim COS SIN approxInvSqrt s).B.hp =
        s.B.hp - (s.A.baseDamage + s.A.ramp * (s.A.hitCount : ℤ)) ∧
      (stepSim COS SIN approxInvSqrt s).A.hitCount = s.A.hitCount + 1 ∧
      ∃ pre post, (stepSim COS SIN approxInvSqrt s).events =
        pre ++ [Event.hit s.tick s.A.id s.B.id
          (s.A.baseDamage + s.A.ramp * (s.A.hitCount : ℤ))] ++ post) ∧
    ((stepSim COS SIN approxInvSqrt s).A.hp ≠ s.A.hp →
      (stepSim COS SIN approxInvSqrt s).A.hp =
        s.A.hp - (s.B.baseDamage + s.B.ramp * (s.B.hitCount : ℤ)) ∧
      (stepSim COS SIN approxInvSqrt s).B.hitCount = s.B.hitCount + 1 ∧
      ∃ pre post, (stepSim COS SIN approxInvSqrt s).events =
        pre ++ [Event.hit s.tick s.B.id s.A.id
          (s.B.baseDamage + s.B.ramp * (s.B.hitCount : ℤ))] ++ post) := by
  refine ⟨?_, ?_, ?_⟩
  · intro n
    obtain ⟨p1, p2, p3, p4⟩ := iterate_params COS SIN approxInvSqrt s n
    constructor
    · rw [Function.iterate_succ_apply']
      rcases stepSim_A_accounting COS SIN approxInvSqrt
          ((stepSim COS SIN approxInvSqrt)^[n] s) with h | ⟨h, -, -⟩
      · rw [h]
      · rw [h]
        refine sub_le_self _ ?_
        rw [p3, p4]
        exact add_nonneg hbdB (mul_nonneg hrmpB (Int.natCast_nonneg _))
    · rw [Function.iterate_succ_apply']
      rcases stepSim_B_accounting COS SIN approxInvSqrt
          ((stepSim COS SIN approxInvSqrt)^[n] s) with h | ⟨h, -, -⟩
      · rw [h]
      · rw [h]
        refine sub_le_self _ ?_
        rw [p1, p2]
        exact add_nonneg hbdA (mul_nonneg hrmpA (Int.natCast_nonneg _))
  · intro hne
    rcases stepSim_B_accounting COS SIN approxInvSqrt s with h | h
    · exact absurd h hne
    · exact h
  · intro hne
    rcases stepSim_A_accounting COS SIN approxInvSqrt s with h | h
    · exact absurd h hne
    · exact h

/-- Witness for the amended C6 at the concrete state `killState`
(non-negative damage parameters; A's first hit lowers B from 3 to -2). -/
theorem C6_health_monotone_accounting_witness :
    (0 : ℤ) ≤ killState.A.baseDamage ∧ (0 : ℤ) ≤ killState.A.ramp ∧
    (0 : ℤ) ≤ killState.B.baseDamage ∧ (0 : ℤ) ≤ killState.B.ramp ∧
    ((stepSim zeroTable zeroTable zeroInv)^[1] killState).B.hp ≤
      ((stepSim zeroTable zeroTable zeroInv)^[0] killState).B.hp ∧
    (stepSim zeroTable zeroTable zeroInv killState).B.hp =
      killState.B.hp - (killState.A.baseDamage +
        killState.A.ramp * (killState.A.hitCount : ℤ)) ∧
    (stepSim zeroTable zeroTable zeroInv killState).A.hitCount =
      killState.A.hitCount + 1 := by
  have main := C6_health_monotone_accounting zeroTable zeroTable zeroInv killState
    (by decide) (by decide) (by decide) (by decide)
  have hx := main.2.1 (by decide)
  exact ⟨by decide, by decide, by decide, by decide, (main.1 0).2, hx.1, hx.2.1⟩
